import Mathlib

/-!
Verification of the SnackAttack round/voting game-loop core.

Shallow embedding of the voting subsystem, leash-constrained entity
model, round/match state machine and collision/scoring resolution from
the Python source (src/screens/gameplay.py, src/screens/treat_attack_gameplay.py,
src/entities/player.py, src/entities/catcher_dog.py, src/entities/falling_treat.py).

Timers are modelled as exact rationals; Python ints as Lean Int/Nat;
Python lists as Lean lists; the fixed-key dict of the voting system as
two named list fields.  Rendering, audio and animation state are outside
the modelled core and are omitted from the structures.
-/

namespace SnackAttack

/-- Embedding of VotingSystem (src/screens/gameplay.py, class VotingSystem).
The Python field votes is a dict with the two fixed keys "extend" and
"yank" mapping to lists of voter ids; it is modelled by the two list
fields extendVoters and yankVoters. -/
structure VotingSystem where
  extendVoters : List String
  yankVoters : List String
  voting_active : Bool
  voting_duration : ℚ
  cooldown_duration : ℚ
  voting_timer : ℚ
  cooldown_timer : ℚ
  last_winner : Option String
deriving Repr, DecidableEq

/-- Embedding of VotingSystem.__init__: voting window 10 s, cooldown 5 s,
voting active, no votes, no winner. -/
def VotingSystem.init : VotingSystem where
  extendVoters := []
  yankVoters := []
  voting_active := true
  voting_duration := 10
  cooldown_duration := 5
  voting_timer := 10
  cooldown_timer := 0
  last_winner := none

/-- Embedding of VotingSystem.add_vote: rejected unless voting is active
and the option is a known key; otherwise the voter id is first removed
from every option list (Python list.remove drops the first occurrence,
guarded by a membership test, which List.erase matches) and then appended
to the chosen option list. -/
def VotingSystem.add_vote (s : VotingSystem) (vote_type voter_id : String) :
    Bool × VotingSystem :=
  if s.voting_active = false then
    (false, s)
  else if vote_type ≠ "extend" ∧ vote_type ≠ "yank" then
    (false, s)
  else
    let ext := s.extendVoters.erase voter_id
    let ynk := s.yankVoters.erase voter_id
    if vote_type = "extend" then
      (true, { s with extendVoters := ext ++ [voter_id], yankVoters := ynk })
    else
      (true, { s with extendVoters := ext, yankVoters := ynk ++ [voter_id] })

/-- Embedding of VotingSystem.get_winner: strictly more extend votes wins
"extend", strictly more yank votes wins "yank", equal counts give none. -/
def VotingSystem.get_winner (s : VotingSystem) : Option String :=
  if s.yankVoters.length < s.extendVoters.length then some "extend"
  else if s.extendVoters.length < s.yankVoters.length then some "yank"
  else none

/-- Embedding of VotingSystem.reset_votes. -/
def VotingSystem.reset_votes (s : VotingSystem) : VotingSystem :=
  { s with extendVoters := [], yankVoters := [], last_winner := none }

/-- Embedding of VotingSystem.update: during cooldown the cooldown timer
counts down and on expiry the votes are cleared and voting reopens; during
voting the voting timer counts down and on expiry the winner is computed,
stored and returned while the system enters cooldown. -/
def VotingSystem.update (s : VotingSystem) (dt : ℚ) :
    Option String × VotingSystem :=
  if 0 < s.cooldown_timer then
    let ct := s.cooldown_timer - dt
    if ct ≤ 0 then
      let s2 := s.reset_votes
      (none, { s2 with cooldown_timer := ct, voting_active := true, voting_timer := s2.voting_duration })
    else
      (none, { s with cooldown_timer := ct })
  else if s.voting_active then
    let vt := s.voting_timer - dt
    if vt ≤ 0 then
      let w := s.get_winner
      (w, { s with voting_timer := vt, last_winner := w, voting_active := false, cooldown_timer := s.cooldown_duration })
    else
      (none, { s with voting_timer := vt })
  else
    (none, s)

/-- Embedding of VotingMeter (src/screens/treat_attack_gameplay.py): plain
vote counters with no voter identity. -/
structure VotingMeter where
  extend_votes : Nat
  yank_votes : Nat
deriving Repr, DecidableEq

/-- Embedding of VotingMeter.reset_votes. -/
def VotingMeter.reset_votes (_ : VotingMeter) : VotingMeter :=
  { extend_votes := 0, yank_votes := 0 }

/-- Embedding of VotingMeter.add_vote: increments the matching counter. -/
def VotingMeter.add_vote (m : VotingMeter) (vote_type : String) : VotingMeter :=
  if vote_type = "extend" then { m with extend_votes := m.extend_votes + 1 }
  else if vote_type = "yank" then { m with yank_votes := m.yank_votes + 1 }
  else m

/-- Embedding of VotingMeter.get_winner: strict comparison, tie gives none. -/
def VotingMeter.get_winner (m : VotingMeter) : Option String :=
  if m.yank_votes < m.extend_votes then some "extend"
  else if m.extend_votes < m.yank_votes then some "yank"
  else none

/-- Embedding of a sequence of add_vote calls applied left to right, as
issued by the vote sources during one voting window. -/
def VotingSystem.castList (s : VotingSystem) (l : List (String × String)) : VotingSystem :=
  l.foldl (fun st p => (st.add_vote p.1 p.2).2) s

/-- Voter ids of the casts whose option is one of the known keys; while
voting is active these are exactly the accepted casts of add_vote. -/
def acceptedVoters (l : List (String × String)) : List String :=
  (l.filter (fun p => decide (p.1 = "extend" ∨ p.1 = "yank"))).map Prod.snd

/-- Concrete vote state of the C3 scenario: a fresh VotingSystem after the
casts extend by v1, extend by v2 and yank by v3. -/
def c3CastState : VotingSystem :=
  (((VotingSystem.init.add_vote "extend" "v1").2.add_vote "extend" "v2").2.add_vote
    "yank" "v3").2

/-- Embedding of an active power-up or penalty effect entry
(src/entities/player.py, Player.apply_effect dictionaries). -/
structure Effect where
  type : String
  magnitude : ℚ
  duration : ℚ
  time_remaining : ℚ
deriving Repr, DecidableEq

/-- Embedding of Player (src/entities/player.py): position, velocity,
score, active effects, derived flags and the leash bounds with their
timer.  Arena bounds are the pygame rect fields used by the movement
clamp; animation and particle state is presentation-only and omitted. -/
structure Player where
  x : ℚ
  y : ℚ
  width : ℤ
  height : ℤ
  arena_left : ℤ
  arena_top : ℤ
  arena_right : ℤ
  arena_bottom : ℤ
  velocity_x : ℚ
  velocity_y : ℚ
  score : ℤ
  active_effects : List Effect
  is_invincible : Bool
  controls_flipped : Bool
  leash_base_min_x : ℤ
  leash_base_max_x : ℤ
  leash_min_x : ℤ
  leash_max_x : ℤ
  leash_effect_timer : ℚ
  leash_effect_duration : ℚ
  leash_extend_amount : ℤ
  leash_yank_amount : ℤ
deriving Repr, DecidableEq

/-- Embedding of Player.add_score: add the signed points, then clamp the
score at zero. -/
def Player.add_score (p : Player) (points : ℤ) : Player :=
  let sc := p.score + points
  { p with score := if sc < 0 then 0 else sc }

/-- Embedding of Player.apply_effect: push the effect with full duration
and set the derived flags for invincibility and chaos immediately. -/
def Player.apply_effect (p : Player) (ty : String) (mag dur : ℚ) : Player :=
  { p with
    active_effects := p.active_effects ++ [⟨ty, mag, dur, dur⟩],
    is_invincible := if ty = "invincibility" then true else p.is_invincible,
    controls_flipped := if ty = "chaos" then true else p.controls_flipped }

/-- Embedding of Player.update_effects: tick every effect timer, drop the
expired effects and reset the derived flags of expired invincibility and
chaos effects. -/
def Player.update_effects (p : Player) (dt : ℚ) : Player :=
  let ticked := p.active_effects.map (fun e => { e with time_remaining := e.time_remaining - dt })
  let expired := ticked.filter (fun e => decide (e.time_remaining ≤ 0))
  let still := ticked.filter (fun e => decide (0 < e.time_remaining))
  { p with
    active_effects := still,
    is_invincible :=
      if expired.any (fun e => decide (e.type = "invincibility")) then false
      else p.is_invincible,
    controls_flipped :=
      if expired.any (fun e => decide (e.type = "chaos")) then false
      else p.controls_flipped }

/-- Embedding of Player.get_score_multiplier: product of the magnitudes of
the active boost effects, starting from 1. -/
def Player.get_score_multiplier (p : Player) : ℚ :=
  (p.active_effects.filter (fun e => decide (e.type = "boost"))).foldl
    (fun m e => m * e.magnitude) 1

/-- Embedding of Player.extend_leash: with a cross-arena argument the leash
maximum is set to that bound, otherwise to the base maximum plus the
configured extend amount; the effect timer restarts either way. -/
def Player.extend_leash (p : Player) (cross_arena_max_x : Option ℤ) : Player :=
  match cross_arena_max_x with
  | some cx => { p with leash_max_x := cx, leash_effect_timer := p.leash_effect_duration }
  | none =>
    { p with
      leash_max_x := p.leash_base_max_x + p.leash_extend_amount,
      leash_effect_timer := p.leash_effect_duration }

/-- Embedding of Player.yank_leash: the leash maximum drops to the base
maximum minus the yank amount but never below the leash minimum plus two
dog widths; the effect timer restarts. -/
def Player.yank_leash (p : Player) : Player :=
  let min_range := p.width * 2
  { p with
    leash_max_x := max (p.leash_base_max_x - p.leash_yank_amount) (p.leash_min_x + min_range),
    leash_effect_timer := p.leash_effect_duration }

/-- Embedding of Player.reset_leash: restore the base bounds and clear the
timer. -/
def Player.reset_leash (p : Player) : Player :=
  { p with
    leash_min_x := p.leash_base_min_x,
    leash_max_x := p.leash_base_max_x,
    leash_effect_timer := 0 }

/-- Embedding of Player.get_leash_state. -/
def Player.get_leash_state (p : Player) : String :=
  if p.leash_effect_timer ≤ 0 then "normal"
  else if p.leash_base_max_x < p.leash_max_x then "extended"
  else if p.leash_max_x < p.leash_base_max_x then "yanked"
  else "normal"

/-- Embedding of the leash-timer block of Player.update: tick the timer
and reset the leash bounds when it expires. -/
def Player.tickLeashTimer (p : Player) (dt : ℚ) : Player :=
  if 0 < p.leash_effect_timer then
    let t := p.leash_effect_timer - dt
    if t ≤ 0 then ({ p with leash_effect_timer := t }).reset_leash
    else { p with leash_effect_timer := t }
  else p

/-- Embedding of the movement block of Player.update: move by velocity
times dt, clamping x to the leash bounds and y to the arena bounds. -/
def Player.applyMovement (p : Player) (dt : ℚ) : Player :=
  let nx := p.x + p.velocity_x * dt
  let ny := p.y + p.velocity_y * dt
  { p with
    x := max (p.leash_min_x : ℚ) (min nx (p.leash_max_x : ℚ)),
    y := max (p.arena_top : ℚ) (min ny ((p.arena_bottom : ℚ) - (p.height : ℚ))) }

/-- Embedding of Player.update: the leash-timer block, the movement block
with its clamps, then update_effects; the animation and particle updates
are presentation-only and omitted. -/
def Player.update (p : Player) (dt : ℚ) : Player :=
  ((p.tickLeashTimer dt).applyMovement dt).update_effects dt

/-- Leash state enum of the Treat Attack catcher dog
(src/entities/catcher_dog.py, class LeashState). -/
inductive LeashState where
  | NORMAL
  | EXTENDED
  | YANKED
deriving Repr, DecidableEq

/-- Embedding of CatcherDog (src/entities/catcher_dog.py): horizontal
catcher with configured leash bound positions selected by the leash state.
Animation controller state is presentation-only and omitted. -/
structure CatcherDog where
  x : ℚ
  y : ℚ
  width : ℤ
  height : ℤ
  ground_y : ℤ
  screen_width : ℤ
  move_speed : ℚ
  velocity_x : ℚ
  facing_right : Bool
  is_moving : Bool
  leash_anchor_x : ℤ
  default_min_x : ℤ
  default_max_x : ℤ
  extended_max_x : ℤ
  yanked_max_x : ℤ
  effect_duration : ℚ
  leash_state : LeashState
  leash_effect_timer : ℚ
  is_eating : Bool
  eat_timer : ℚ
  eat_duration : ℚ
deriving Repr, DecidableEq

/-- Embedding of CatcherDog.current_min_x. -/
def CatcherDog.current_min_x (d : CatcherDog) : ℤ := d.default_min_x

/-- Embedding of CatcherDog.current_max_x: selected by the leash state. -/
def CatcherDog.current_max_x (d : CatcherDog) : ℤ :=
  match d.leash_state with
  | LeashState.EXTENDED => d.extended_max_x
  | LeashState.YANKED => d.yanked_max_x
  | LeashState.NORMAL => d.default_max_x

/-- Embedding of CatcherDog.set_leash_state: store the state and restart
the effect timer for a non-normal state. -/
def CatcherDog.set_leash_state (d : CatcherDog) (st : LeashState) : CatcherDog :=
  { d with
    leash_state := st,
    leash_effect_timer :=
      if st ≠ LeashState.NORMAL then d.effect_duration
      else d.leash_effect_timer }

/-- Embedding of CatcherDog.extend_leash. -/
def CatcherDog.extend_leash (d : CatcherDog) : CatcherDog :=
  d.set_leash_state LeashState.EXTENDED

/-- Embedding of CatcherDog.yank_leash. -/
def CatcherDog.yank_leash (d : CatcherDog) : CatcherDog :=
  d.set_leash_state LeashState.YANKED

/-- Embedding of CatcherDog.reset_leash. -/
def CatcherDog.reset_leash (d : CatcherDog) : CatcherDog :=
  { d with leash_state := LeashState.NORMAL, leash_effect_timer := 0 }

/-- Embedding of CatcherDog.trigger_eat (animation call omitted). -/
def CatcherDog.trigger_eat (d : CatcherDog) : CatcherDog :=
  { d with is_eating := true, eat_timer := d.eat_duration }

/-- Embedding of the leash-timer block of CatcherDog.update: tick the
timer and reset the leash when it expires. -/
def CatcherDog.tickLeashTimer (d : CatcherDog) (dt : ℚ) : CatcherDog :=
  if 0 < d.leash_effect_timer then
    let t := d.leash_effect_timer - dt
    if t ≤ 0 then ({ d with leash_effect_timer := t }).reset_leash
    else { d with leash_effect_timer := t }
  else d

/-- Embedding of the eat-animation-timer block of CatcherDog.update. -/
def CatcherDog.tickEatTimer (d : CatcherDog) (dt : ℚ) : CatcherDog :=
  if d.is_eating then
    let t := d.eat_timer - dt
    if t ≤ 0 then { d with eat_timer := t, is_eating := false }
    else { d with eat_timer := t }
  else d

/-- Embedding of the movement block of CatcherDog.update: only when the
horizontal velocity is non-zero, move and clamp x to the current leash
bounds (the guard of the source). -/
def CatcherDog.applyMovement (d : CatcherDog) (dt : ℚ) : CatcherDog :=
  if d.velocity_x ≠ 0 then
    let nx := d.x + d.velocity_x * dt
    let min_x := (d.current_min_x : ℚ)
    let max_x := (d.current_max_x : ℚ) - (d.width : ℚ)
    { d with x := max min_x (min nx max_x) }
  else
    d

/-- Embedding of CatcherDog.update: leash-timer block, eat-timer block,
then the guarded movement block; the animation controller update is
presentation-only and omitted. -/
def CatcherDog.update (d : CatcherDog) (dt : ℚ) : CatcherDog :=
  ((d.tickLeashTimer dt).tickEatTimer dt).applyMovement dt

/-- Concrete CatcherDog built from the default configuration of
treat_attack_gameplay.py and catcher_dog.py, standing still at x = 480
(reachable under the normal leash bounds 50 to 550). -/
def dogAt480 : CatcherDog where
  x := 480
  y := 650
  width := 64
  height := 64
  ground_y := 650
  screen_width := 720
  move_speed := 300
  velocity_x := 0
  facing_right := true
  is_moving := false
  leash_anchor_x := 0
  default_min_x := 50
  default_max_x := 550
  extended_max_x := 670
  yanked_max_x := 350
  effect_duration := 5
  leash_state := LeashState.NORMAL
  leash_effect_timer := 0
  is_eating := false
  eat_timer := 0
  eat_duration := 2/5

/-- Embedding of Python str.lower restricted to the ASCII command strings
of _process_command: lowercase every character. -/
def pyLower (s : String) : String := ⟨s.data.map Char.toLower⟩

/-- Embedding of Python str.strip: drop whitespace from both ends. -/
def pyStrip (s : String) : String :=
  ⟨((s.data.dropWhile Char.isWhitespace).reverse.dropWhile Char.isWhitespace).reverse⟩

/-- Embedding of FallingTreat (src/entities/falling_treat.py): a treat
with a signed point value falling toward the bottom of the screen. -/
structure FallingTreat where
  treat_id : String
  name : String
  point_value : ℤ
  spawn_bias_right : Bool
  x : ℚ
  y : ℚ
  width : ℤ
  height : ℤ
  fall_speed : ℚ
  screen_height : ℤ
  active : Bool
  collected : Bool
deriving Repr, DecidableEq

/-- Result dictionary returned by FallingTreat.collect. -/
structure TreatCollectResult where
  treat_id : String
  point_value : ℤ
  name : String
deriving Repr, DecidableEq

/-- Embedding of FallingTreat.collect: mark inactive and collected and
return the treat info with its point value. -/
def FallingTreat.collect (t : FallingTreat) :
    TreatCollectResult × FallingTreat :=
  (⟨t.treat_id, t.point_value, t.name⟩, { t with active := false, collected := true })

/-- Embedding of FallingTreat.update: an inactive treat reports removal;
otherwise it falls and is deactivated once past the screen bottom. -/
def FallingTreat.update (t : FallingTreat) (dt : ℚ) : Bool × FallingTreat :=
  if t.active = false then (false, t)
  else
    let t2 := { t with y := t.y + t.fall_speed * dt }
    if (t2.screen_height : ℚ) < t2.y then (false, { t2 with active := false })
    else (true, t2)

/-- Embedding of the TreatAttackGameplay screen state
(src/screens/treat_attack_gameplay.py) restricted to the modelled core:
score, round timer, voting window state and the catcher dog. -/
structure TreatAttackState where
  score : ℤ
  time_remaining : ℚ
  game_over : Bool
  paused : Bool
  voting_meter : VotingMeter
  vote_window_duration : ℚ
  vote_timer : ℚ
  vote_cooldown : ℚ
  cooldown_timer : ℚ
  voting_active : Bool
  dog : CatcherDog
deriving Repr, DecidableEq

/-- Embedding of the collision branch of TreatAttackGameplay.update: the
collected treat adds its raw point value to the screen score (no clamp in
the source) and triggers the eat animation of the dog. -/
def TreatAttackState.collectTreat (st : TreatAttackState) (t : FallingTreat) :
    TreatAttackState × FallingTreat :=
  let r := t.collect
  ({ st with score := st.score + r.1.point_value, dog := st.dog.trigger_eat }, r.2)

/-- Embedding of TreatAttackGameplay._process_command: lowercase and strip
the command (Python lower then strip); the extend synonyms and yank synonyms add one anonymous vote
to the meter while the voting window is active. -/
def TreatAttackState.processCommand (st : TreatAttackState) (command : String) :
    TreatAttackState :=
  let c := pyStrip (pyLower command)
  if c = "!extend" ∨ c = "!help" then
    if st.voting_active then { st with voting_meter := st.voting_meter.add_vote "extend" }
    else st
  else if c = "!yank" ∨ c = "!hinder" then
    if st.voting_active then { st with voting_meter := st.voting_meter.add_vote "yank" }
    else st
  else st

/-- Concrete bad treat from the built-in default treat table of
treat_attack_gameplay.py: id "bad", point value -200. -/
def badTreat : FallingTreat where
  treat_id := "bad"
  name := "Treat"
  point_value := -200
  spawn_bias_right := false
  x := 300
  y := 600
  width := 48
  height := 48
  fall_speed := 150
  screen_height := 720
  active := true
  collected := false

/-- Concrete Treat Attack screen state with score 150 during an active
round. -/
def taState150 : TreatAttackState where
  score := 150
  time_remaining := 30
  game_over := false
  paused := false
  voting_meter := { extend_votes := 0, yank_votes := 0 }
  vote_window_duration := 10
  vote_timer := 0
  vote_cooldown := 5
  cooldown_timer := 0
  voting_active := true
  dog := dogAt480

/-- Embedding of the GameplayScreen match state
(src/screens/gameplay.py) restricted to the fields read and written by
_end_round: scores, round-win counters, round counter and the per-level
difficulty fields. -/
structure GameplayMatch where
  p1_score : ℤ
  p2_score : ℤ
  p1_round_wins : Nat
  p2_round_wins : Nat
  current_round : Nat
  max_rounds : Nat
  round_active : Bool
  current_level : Nat
  fall_speed : ℚ
  base_spawn_interval : ℚ
  round_duration : ℚ
  in_results : Bool
deriving Repr, DecidableEq

/-- Embedding of GameplayScreen._end_round: stop the round, award the
round win to the strictly higher score, then end the match when a side
reached the win threshold (max_rounds integer-halved plus one) or the
round counter reached max_rounds; otherwise advance to the next round and
refresh the per-level difficulty numbers.  The external level config is
passed in as the round_duration lookup; the in_results flag stands for
the state change to the results screen performed by _end_game. -/
def GameplayMatch.end_round (getLevelDuration : Nat → Option ℚ)
    (g : GameplayMatch) : GameplayMatch :=
  let g1 := { g with round_active := false }
  let g2 :=
    if g1.p2_score < g1.p1_score then { g1 with p1_round_wins := g1.p1_round_wins + 1 }
    else if g1.p1_score < g1.p2_score then { g1 with p2_round_wins := g1.p2_round_wins + 1 }
    else g1
  let wins_needed := g2.max_rounds / 2 + 1
  if wins_needed ≤ g2.p1_round_wins ∨ wins_needed ≤ g2.p2_round_wins then
    { g2 with in_results := true }
  else if g2.max_rounds ≤ g2.current_round then
    { g2 with in_results := true }
  else
    let g3 := { g2 with current_round := g2.current_round + 1 }
    if g3.current_round ≤ 3 then
      { g3 with
        current_level := g3.current_round,
        round_duration := (getLevelDuration g3.current_round).getD 60,
        fall_speed := 180 + ((g3.current_round : ℚ) - 1) * 30,
        base_spawn_interval := max (1/2) (1 - ((g3.current_round : ℚ) - 1) * (15/100)) }
    else g3

/-- Embedding of the Python int() coercion applied to a rational value:
truncation toward zero, as pygame.Rect and int() do. -/
def pyInt (q : ℚ) : ℤ := Int.tdiv q.num (q.den : ℤ)

/-- Embedding of pygame.Rect restricted to the fields the collision code
uses. -/
structure Rect where
  left : ℤ
  top : ℤ
  w : ℤ
  h : ℤ
deriving Repr, DecidableEq

/-- Embedding of pygame.Rect.colliderect: strict overlap on both axes;
rects with non-positive width or height never collide. -/
def Rect.colliderect (a b : Rect) : Bool :=
  decide (0 < a.w) && decide (0 < a.h) && decide (0 < b.w) && decide (0 < b.h) &&
  decide (a.left < b.left + b.w) && decide (b.left < a.left + a.w) &&
  decide (a.top < b.top + b.h) && decide (b.top < a.top + a.h)

/-- Embedding of pygame.Rect.inflate: grow the size by the offsets while
keeping the rect centred (integer halving as in pygame). -/
def Rect.inflate (r : Rect) (dx dy : ℤ) : Rect :=
  { left := r.left - dx / 2, top := r.top - dy / 2, w := r.w + dx, h := r.h + dy }

/-- Effect dictionary carried by a snack configuration
(snacks.json entries used by _collect_snack). -/
structure SnackEffect where
  type : String
  magnitude : ℚ
  duration_seconds : ℚ
deriving Repr, DecidableEq

/-- Embedding of FallingSnack (src/screens/gameplay.py): a falling snack
of one arena with a signed point value and an optional effect. -/
structure FallingSnack where
  snack_id : String
  point_value : ℤ
  effect : Option SnackEffect
  x : ℚ
  y : ℚ
  width : ℤ
  height : ℤ
  fall_speed : ℚ
  ground_y : ℚ
  active : Bool
  collected : Bool
deriving Repr, DecidableEq

/-- Embedding of the FallingSnack.rect property. -/
def FallingSnack.rect (s : FallingSnack) : Rect :=
  ⟨pyInt s.x, pyInt s.y, s.width, s.height⟩

/-- Result dictionary of FallingSnack.collect. -/
structure SnackResult where
  snack_id : String
  point_value : ℤ
  effect : Option SnackEffect
deriving Repr, DecidableEq

/-- Embedding of FallingSnack.collect: mark inactive and collected and
return id, point value and effect. -/
def FallingSnack.collect (s : FallingSnack) : SnackResult × FallingSnack :=
  (⟨s.snack_id, s.point_value, s.effect⟩, { s with active := false, collected := true })

/-- Embedding of FallingSnack.update: an inactive snack reports removal;
otherwise it falls (rotation is presentation-only and omitted) and is
deactivated once past the ground level. -/
def FallingSnack.fall_update (s : FallingSnack) (dt : ℚ) : Bool × FallingSnack :=
  if s.active = false then (false, s)
  else
    let s2 := { s with y := s.y + s.fall_speed * dt }
    if s2.ground_y < s2.y then (false, { s2 with active := false })
    else (true, s2)

/-- Embedding of the Player.rect property. -/
def Player.rect (p : Player) : Rect :=
  ⟨pyInt p.x, pyInt p.y, p.width, p.height⟩

/-- One snack collection performed by _check_collisions, recorded as the
side that collected, the arena swept, the index of the snack in that
arena, whether it was a cross-arena steal, and the awarded points. -/
structure CollectEvent where
  pid : Nat
  arena : Nat
  idx : Nat
  stolen : Bool
  points : ℤ
deriving Repr, DecidableEq

/-- Embedding of the _collect_snack body (src/screens/gameplay.py): the
points are the snack point value with the 50 percent steal bonus and the
boost score multiplier (both truncated as Python int() does), added to the
player score; a carried effect is applied to the player.  Returns the
updated player and the awarded points. -/
def collectSnackPlayer (stolen : Bool) (r : SnackResult) (pl : Player) : Player × ℤ :=
  let points0 : ℤ := if stolen then pyInt ((r.point_value : ℚ) * (3/2)) else r.point_value
  let points : ℤ := pyInt ((points0 : ℚ) * pl.get_score_multiplier)
  let pl2 := pl.add_score points
  match r.effect with
  | some e => (pl2.apply_effect e.type e.magnitude e.duration_seconds, points)
  | none => (pl2, points)

/-- Embedding of one loop of _check_collisions over one arena snack list:
a snack that is still active and whose shrunken hitbox overlaps the player
hitbox is collected via FallingSnack.collect and _collect_snack, and the
collection is recorded with the absolute index of the snack. -/
def sweepSnacks (pid arena : Nat) (stolen : Bool) (hb : Rect) :
    Player → Nat → List FallingSnack → Player × List FallingSnack × List CollectEvent
  | pl, _, [] => (pl, [], [])
  | pl, i, s :: rest =>
    if s.active && hb.colliderect (s.rect.inflate (-20) (-20)) then
      let r := s.collect
      let u := collectSnackPlayer stolen r.1 pl
      let next := sweepSnacks pid arena stolen hb u.1 (i + 1) rest
      (next.1, r.2 :: next.2.1, CollectEvent.mk pid arena i stolen u.2 :: next.2.2)
    else
      let next := sweepSnacks pid arena stolen hb pl (i + 1) rest
      (next.1, s :: next.2.1, next.2.2)

/-- Per-tick collision state of GameplayScreen: the two players and the
two arena snack lists. -/
structure GameplayTick where
  player1 : Player
  player2 : Player
  arena1_snacks : List FallingSnack
  arena2_snacks : List FallingSnack
deriving Repr, DecidableEq

/-- Embedding of GameplayScreen._check_collisions: hitboxes are the player
rects shrunk by 80 on each axis and snack rects shrunk by 20; the four
sweeps run in source order (player 1 own arena, player 2 own arena,
player 1 stealing in arena 2 when extended, player 2 stealing in arena 1
when extended), and every collection event is returned in order. -/
def checkCollisions (g : GameplayTick) : GameplayTick × List CollectEvent :=
  let p1_hitbox := (g.player1.rect).inflate (-80) (-80)
  let p2_hitbox := (g.player2.rect).inflate (-80) (-80)
  let r1 := sweepSnacks 1 1 false p1_hitbox g.player1 0 g.arena1_snacks
  let r2 := sweepSnacks 2 2 false p2_hitbox g.player2 0 g.arena2_snacks
  let r3 :=
    if r1.1.get_leash_state = "extended" then sweepSnacks 1 2 true p1_hitbox r1.1 0 r2.2.1
    else (r1.1, r2.2.1, ([] : List CollectEvent))
  let r4 :=
    if r2.1.get_leash_state = "extended" then sweepSnacks 2 1 true p2_hitbox r2.1 0 r1.2.1
    else (r2.1, r1.2.1, ([] : List CollectEvent))
  (⟨r3.1, r4.1, r4.2.1, r3.2.1⟩, r1.2.2 ++ r2.2.2 ++ r3.2.2 ++ r4.2.2)

/-- C1: winner resolution of the voting subsystem.  In both implementations
(VotingSystem of gameplay.py and VotingMeter of treat_attack_gameplay.py)
the option with the strictly greater final count wins and equal counts,
including zero-zero, produce no winner; moreover the update call that
expires the voting window returns exactly this resolution. -/
theorem c1_winner_resolution :
    (∀ s : VotingSystem,
      (s.yankVoters.length < s.extendVoters.length → s.get_winner = some "extend") ∧
      (s.extendVoters.length < s.yankVoters.length → s.get_winner = some "yank") ∧
      (s.extendVoters.length = s.yankVoters.length → s.get_winner = none)) ∧
    (∀ m : VotingMeter,
      (m.yank_votes < m.extend_votes → m.get_winner = some "extend") ∧
      (m.extend_votes < m.yank_votes → m.get_winner = some "yank") ∧
      (m.extend_votes = m.yank_votes → m.get_winner = none)) ∧
    (∀ (s : VotingSystem) (dt : ℚ), s.cooldown_timer ≤ 0 → s.voting_active = true →
      s.voting_timer - dt ≤ 0 → (s.update dt).1 = s.get_winner) := by
  refine ⟨fun s => ⟨?_, ?_, ?_⟩, fun m => ⟨?_, ?_, ?_⟩, fun s dt hc ha he => ?_⟩
  · intro h
    simp only [VotingSystem.get_winner, if_pos h]
  · intro h
    simp only [VotingSystem.get_winner]
    rw [if_neg (by omega), if_pos h]
  · intro h
    simp only [VotingSystem.get_winner]
    rw [if_neg (by omega), if_neg (by omega)]
  · intro h
    simp only [VotingMeter.get_winner, if_pos h]
  · intro h
    simp only [VotingMeter.get_winner]
    rw [if_neg (by omega), if_pos h]
  · intro h
    simp only [VotingMeter.get_winner]
    rw [if_neg (by omega), if_neg (by omega)]
  · simp only [VotingSystem.update]
    rw [if_neg (by exact not_lt.mpr hc), if_pos ha, if_pos he]

/-- Witness for C1 at concrete inputs: one extend vote beats zero yank
votes, and an update that expires a fresh voting window with no votes
returns no winner. -/
theorem c1_winner_resolution_witness :
    VotingSystem.get_winner
      { extendVoters := ["a"], yankVoters := [], voting_active := true,
        voting_duration := 10, cooldown_duration := 5, voting_timer := 10,
        cooldown_timer := 0, last_winner := none } = some "extend" ∧
    (VotingSystem.init.update 10).1 = none := by
  constructor
  · exact (c1_winner_resolution.1 _).1 (by decide)
  · rw [c1_winner_resolution.2.2 VotingSystem.init 10 (by norm_num [VotingSystem.init])
      rfl (by norm_num [VotingSystem.init])]
    rfl

/-- C9: invalid votes (unknown option, or cast while voting is inactive)
are rejected with a false return and leave the whole state unchanged; the
call returns true exactly when voting is active and the option is known,
and in that case the voter id is recorded in the chosen option list. -/
theorem c9_invalid_vote_handling (s : VotingSystem) (vt vid : String) :
    (s.voting_active = false ∨ (vt ≠ "extend" ∧ vt ≠ "yank") →
      (s.add_vote vt vid).1 = false ∧ (s.add_vote vt vid).2 = s) ∧
    ((s.add_vote vt vid).1 = true ↔
      s.voting_active = true ∧ (vt = "extend" ∨ vt = "yank")) ∧
    ((s.add_vote vt vid).1 = true →
      (vt = "extend" → vid ∈ (s.add_vote vt vid).2.extendVoters) ∧
      (vt = "yank" → vid ∈ (s.add_vote vt vid).2.yankVoters)) := by
  by_cases hact : s.voting_active = true
  · by_cases hext : vt = "extend"
    · subst hext
      simp [VotingSystem.add_vote, hact]
    · by_cases hynk : vt = "yank"
      · subst hynk
        simp [VotingSystem.add_vote, hact, hext]
      · simp [VotingSystem.add_vote, hact, hext, hynk]
  · have hfalse : s.voting_active = false := by
      cases h : s.voting_active
      · rfl
      · exact absurd h hact
    simp [VotingSystem.add_vote, hfalse]

/-- Witness for C9 at concrete inputs: an unknown option is rejected
without state change, and a valid vote is accepted and recorded. -/
theorem c9_invalid_vote_handling_witness :
    ((VotingSystem.init.add_vote "bogus" "u").1 = false ∧
      (VotingSystem.init.add_vote "bogus" "u").2 = VotingSystem.init) ∧
    "u" ∈ (VotingSystem.init.add_vote "extend" "u").2.extendVoters := by
  constructor
  · exact (c9_invalid_vote_handling VotingSystem.init "bogus" "u").1
      (Or.inr (by decide))
  · exact ((c9_invalid_vote_handling VotingSystem.init "extend" "u").2.2
      (by decide)).1 rfl

/-- Helper: add_vote never changes the phase flag. -/
theorem add_vote_voting_active (s : VotingSystem) (vt vid : String) :
    (s.add_vote vt vid).2.voting_active = s.voting_active := by
  unfold VotingSystem.add_vote
  repeat' split
  all_goals rfl

/-- Helper: re-voting keeps the combined voter list duplicate-free and its
element set gains exactly the new voter, for both target options. -/
theorem nodup_after_revote (ext ynk : List String) (vid : String)
    (h : (ext ++ ynk).Nodup) :
    ((ext.erase vid ++ [vid]) ++ ynk.erase vid).Nodup ∧
    (ext.erase vid ++ (ynk.erase vid ++ [vid])).Nodup ∧
    ((ext.erase vid ++ [vid]) ++ ynk.erase vid).toFinset =
      insert vid (ext ++ ynk).toFinset ∧
    (ext.erase vid ++ (ynk.erase vid ++ [vid])).toFinset =
      insert vid (ext ++ ynk).toFinset := by
  obtain ⟨hext, hynk, hdisj⟩ := List.nodup_append.mp h
  have hextE : (ext.erase vid).Nodup := hext.erase _
  have hynkE : (ynk.erase vid).Nodup := hynk.erase _
  have hvid_ext : vid ∉ ext.erase vid := hext.not_mem_erase
  have hvid_ynk : vid ∉ ynk.erase vid := hynk.not_mem_erase
  have hsub_ext : ∀ a, a ∈ ext.erase vid → a ∈ ext := fun a ha =>
    List.erase_subset _ _ ha
  have hsub_ynk : ∀ a, a ∈ ynk.erase vid → a ∈ ynk := fun a ha =>
    List.erase_subset _ _ ha
  have hdisjE : ∀ a, a ∈ ext.erase vid → a ∉ ynk.erase vid := by
    intro a ha hb
    exact hdisj (hsub_ext a ha) (hsub_ynk a hb)
  refine ⟨?_, ?_, ?_, ?_⟩
  · rw [List.nodup_append]
    refine ⟨?_, hynkE, ?_⟩
    · rw [List.nodup_append]
      refine ⟨hextE, List.nodup_singleton _, ?_⟩
      intro a ha hb
      rw [List.mem_singleton] at hb
      subst hb
      exact hvid_ext ha
    · intro a ha hb
      rcases List.mem_append.mp ha with h1 | h1
      · exact hdisjE a h1 hb
      · rw [List.mem_singleton] at h1
        subst h1
        exact hvid_ynk hb
  · rw [List.nodup_append]
    refine ⟨hextE, ?_, ?_⟩
    · rw [List.nodup_append]
      refine ⟨hynkE, List.nodup_singleton _, ?_⟩
      intro a ha hb
      rw [List.mem_singleton] at hb
      subst hb
      exact hvid_ynk ha
    · intro a ha hb
      rcases List.mem_append.mp hb with h1 | h1
      · exact hdisjE a ha h1
      · rw [List.mem_singleton] at h1
        subst h1
        exact hvid_ext ha
  · ext x
    simp only [List.toFinset_append, Finset.mem_union, List.mem_toFinset,
      Finset.mem_insert, List.mem_singleton]
    by_cases hx : x = vid
    · subst hx
      simp
    · simp only [hext.mem_erase_iff, hynk.mem_erase_iff, hx, false_or, ne_eq,
        not_false_iff, true_and]
      tauto
  · ext x
    simp only [List.toFinset_append, Finset.mem_union, List.mem_toFinset,
      Finset.mem_insert, List.mem_singleton]
    by_cases hx : x = vid
    · subst hx
      simp
    · simp only [hext.mem_erase_iff, hynk.mem_erase_iff, hx, false_or, ne_eq,
        not_false_iff, true_and]
      tauto

/-- Helper: one add_vote call keeps the combined voter list duplicate-free,
and while voting is active it makes the voter set grow by exactly the new
voter when the option is known and leaves it unchanged otherwise. -/
theorem add_vote_nodup_toFinset (s : VotingSystem) (vt vid : String)
    (h : (s.extendVoters ++ s.yankVoters).Nodup) :
    ((s.add_vote vt vid).2.extendVoters ++ (s.add_vote vt vid).2.yankVoters).Nodup ∧
    (s.voting_active = true →
      ((s.add_vote vt vid).2.extendVoters ++
          (s.add_vote vt vid).2.yankVoters).toFinset =
        if vt = "extend" ∨ vt = "yank" then
          insert vid (s.extendVoters ++ s.yankVoters).toFinset
        else (s.extendVoters ++ s.yankVoters).toFinset) := by
  by_cases hact : s.voting_active = true
  · by_cases hextq : vt = "extend"
    · subst hextq
      have hr := nodup_after_revote s.extendVoters s.yankVoters vid h
      constructor
      · simpa [VotingSystem.add_vote, hact] using hr.1
      · intro _
        simpa [VotingSystem.add_vote, hact] using hr.2.2.1
    · by_cases hynkq : vt = "yank"
      · subst hynkq
        have hr := nodup_after_revote s.extendVoters s.yankVoters vid h
        constructor
        · simpa [VotingSystem.add_vote, hact, hextq] using hr.2.1
        · intro _
          simpa [VotingSystem.add_vote, hact, hextq] using hr.2.2.2
      · constructor
        · simpa [VotingSystem.add_vote, hact, hextq, hynkq] using h
        · intro _
          simp [VotingSystem.add_vote, hact, hextq, hynkq]
  · have hfalse : s.voting_active = false := by
      cases hb : s.voting_active
      · rfl
      · exact absurd hb hact
    constructor
    · simpa [VotingSystem.add_vote, hfalse] using h
    · intro habs
      rw [habs] at hfalse
      cases hfalse

/-- Helper: acceptedVoters unfolds over a cons cell. -/
theorem acceptedVoters_cons (p : String × String) (rest : List (String × String)) :
    acceptedVoters (p :: rest) =
      if p.1 = "extend" ∨ p.1 = "yank" then p.2 :: acceptedVoters rest
      else acceptedVoters rest := by
  simp only [acceptedVoters, List.filter_cons]
  by_cases hp : p.1 = "extend" ∨ p.1 = "yank"
  · simp [hp]
  · simp [hp]

/-- Helper: running any cast sequence from a duplicate-free voting state
keeps the phase, keeps the combined voter list duplicate-free and makes the
voter set the union of the initial set with the accepted voters. -/
theorem castList_invariant (l : List (String × String)) :
    ∀ s : VotingSystem, s.voting_active = true →
      (s.extendVoters ++ s.yankVoters).Nodup →
      (s.castList l).voting_active = true ∧
      ((s.castList l).extendVoters ++ (s.castList l).yankVoters).Nodup ∧
      ((s.castList l).extendVoters ++ (s.castList l).yankVoters).toFinset =
        (s.extendVoters ++ s.yankVoters).toFinset ∪ (acceptedVoters l).toFinset := by
  induction l with
  | nil =>
    intro s hact hnd
    exact ⟨hact, hnd, by simp [VotingSystem.castList, acceptedVoters]⟩
  | cons p rest ih =>
    intro s hact hnd
    have hstep := add_vote_nodup_toFinset s p.1 p.2 hnd
    have hact2 : (s.add_vote p.1 p.2).2.voting_active = true := by
      rw [add_vote_voting_active]
      exact hact
    have hmain := ih (s.add_vote p.1 p.2).2 hact2 hstep.1
    have hunfold : s.castList (p :: rest) = ((s.add_vote p.1 p.2).2).castList rest := by
      simp [VotingSystem.castList]
    rw [hunfold]
    refine ⟨hmain.1, hmain.2.1, ?_⟩
    rw [hmain.2.2, hstep.2 hact, acceptedVoters_cons]
    by_cases hp : p.1 = "extend" ∨ p.1 = "yank"
    · rw [if_pos hp, if_pos hp]
      ext x
      simp only [Finset.mem_union, Finset.mem_insert, List.mem_toFinset,
        List.toFinset_cons]
      tauto
    · rw [if_neg hp, if_neg hp]

/-- C2: one vote per voter.  Starting from an empty voting window, after any
sequence of casts the combined voter list is duplicate-free (so a voter id
sits in at most one option at a time), the two option lists are disjoint,
and the total number of voter entries equals the number of distinct voter
ids among the accepted casts of the window. -/
theorem c2_one_vote_per_voter (s : VotingSystem) (l : List (String × String))
    (hext : s.extendVoters = []) (hynk : s.yankVoters = [])
    (hact : s.voting_active = true) :
    ((s.castList l).extendVoters ++ (s.castList l).yankVoters).Nodup ∧
    (∀ v, v ∈ (s.castList l).extendVoters → v ∉ (s.castList l).yankVoters) ∧
    (s.castList l).extendVoters.length + (s.castList l).yankVoters.length =
      (acceptedVoters l).dedup.length := by
  have h := castList_invariant l s hact (by rw [hext, hynk]; exact List.nodup_nil)
  refine ⟨h.2.1, ?_, ?_⟩
  · intro v hv hv2
    exact (List.nodup_append.mp h.2.1).2.2 hv hv2
  · have hfin : ((s.castList l).extendVoters ++ (s.castList l).yankVoters).toFinset =
        (acceptedVoters l).toFinset := by
      rw [h.2.2, hext, hynk]
      simp
    calc (s.castList l).extendVoters.length + (s.castList l).yankVoters.length
        = ((s.castList l).extendVoters ++ (s.castList l).yankVoters).length := by
          rw [List.length_append]
      _ = ((s.castList l).extendVoters ++ (s.castList l).yankVoters).toFinset.card :=
          (List.toFinset_card_of_nodup h.2.1).symm
      _ = (acceptedVoters l).toFinset.card := by rw [hfin]
      _ = (acceptedVoters l).dedup.length := List.card_toFinset _

/-- Witness for C2 at a concrete cast sequence: v1 votes extend, v2 votes
yank, then v1 re-votes yank; two entries remain for two distinct voters. -/
theorem c2_one_vote_per_voter_witness :
    (VotingSystem.init.castList
        [("extend", "v1"), ("yank", "v2"), ("yank", "v1")]).extendVoters.length +
      (VotingSystem.init.castList
        [("extend", "v1"), ("yank", "v2"), ("yank", "v1")]).yankVoters.length =
      (acceptedVoters [("extend", "v1"), ("yank", "v2"), ("yank", "v1")]).dedup.length :=
  (c2_one_vote_per_voter VotingSystem.init
    [("extend", "v1"), ("yank", "v2"), ("yank", "v1")] rfl rfl rfl).2.2

/-- C3: voting cycle timing.  With the 10 s window and 5 s cooldown of the
source and casts extend, extend, yank, the update call that brings elapsed
time to 10 s returns "extend" and enters cooldown, and the call that brings
elapsed time to 15 s clears all votes, reopens voting and returns none; the
same holds when the window is consumed in 2.5 s steps. -/
theorem c3_voting_cycle_timing :
    (let r1 := c3CastState.update 10
     let r2 := r1.2.update 5
     r1.1 = some "extend" ∧ r1.2.voting_active = false ∧ r1.2.cooldown_timer = 5 ∧
     r2.1 = none ∧ r2.2.voting_active = true ∧ r2.2.extendVoters = [] ∧
     r2.2.yankVoters = [] ∧ r2.2.voting_timer = 10) ∧
    (let u1 := c3CastState.update (5/2)
     let u2 := u1.2.update (5/2)
     let u3 := u2.2.update (5/2)
     let u4 := u3.2.update (5/2)
     let u5 := u4.2.update (5/2)
     let u6 := u5.2.update (5/2)
     u1.1 = none ∧ u2.1 = none ∧ u3.1 = none ∧
     u4.1 = some "extend" ∧ u4.2.voting_active = false ∧
     u5.1 = none ∧ u5.2.voting_active = false ∧
     u6.1 = none ∧ u6.2.voting_active = true ∧
     u6.2.extendVoters = [] ∧ u6.2.yankVoters = []) := by
  have h0 : c3CastState = VotingSystem.mk ["v1", "v2"] ["v3"] true 10 5 10 0 none := by
    simp [c3CastState, VotingSystem.init, VotingSystem.add_vote, List.erase]
  have h1 : c3CastState.update 10 =
      (some "extend", VotingSystem.mk ["v1", "v2"] ["v3"] false 10 5 0 5 (some "extend")) := by
    rw [h0]
    norm_num [VotingSystem.update, VotingSystem.get_winner]
  have h2 : (VotingSystem.mk ["v1", "v2"] ["v3"] false 10 5 0 5
        (some "extend")).update 5 =
      (none, VotingSystem.mk [] [] true 10 5 10 0 none) := by
    norm_num [VotingSystem.update, VotingSystem.reset_votes]
  have g1 : c3CastState.update (5/2) =
      (none, VotingSystem.mk ["v1", "v2"] ["v3"] true 10 5 (15/2) 0 none) := by
    rw [h0]
    norm_num [VotingSystem.update]
  have g2 : (VotingSystem.mk ["v1", "v2"] ["v3"] true 10 5 (15/2) 0 none).update (5/2) =
      (none, VotingSystem.mk ["v1", "v2"] ["v3"] true 10 5 5 0 none) := by
    norm_num [VotingSystem.update]
  have g3 : (VotingSystem.mk ["v1", "v2"] ["v3"] true 10 5 5 0 none).update (5/2) =
      (none, VotingSystem.mk ["v1", "v2"] ["v3"] true 10 5 (5/2) 0 none) := by
    norm_num [VotingSystem.update]
  have g4 : (VotingSystem.mk ["v1", "v2"] ["v3"] true 10 5 (5/2) 0 none).update (5/2) =
      (some "extend", VotingSystem.mk ["v1", "v2"] ["v3"] false 10 5 0 5 (some "extend")) := by
    norm_num [VotingSystem.update, VotingSystem.get_winner]
  have g5 : (VotingSystem.mk ["v1", "v2"] ["v3"] false 10 5 0 5
        (some "extend")).update (5/2) =
      (none, VotingSystem.mk ["v1", "v2"] ["v3"] false 10 5 0 (5/2) (some "extend")) := by
    norm_num [VotingSystem.update]
  have g6 : (VotingSystem.mk ["v1", "v2"] ["v3"] false 10 5 0 (5/2)
        (some "extend")).update (5/2) =
      (none, VotingSystem.mk [] [] true 10 5 10 0 none) := by
    norm_num [VotingSystem.update, VotingSystem.reset_votes]
  refine ⟨?_, ?_⟩
  · simp [h1, h2]
  · simp [g1, g2, g3, g4, g5, g6]

/-- Helper: one add_score call always lands at a non-negative score. -/
theorem add_score_nonneg (p : Player) (n : ℤ) : 0 ≤ (p.add_score n).score := by
  simp only [Player.add_score]
  split
  · exact le_refl 0
  · omega

/-- C4: match termination.  For max_rounds = 3 the win threshold computed
by _end_round is 2, and the round end enters the results state exactly
when a side's updated round-win count reaches 2 (regardless of the round
counter) or the round counter has reached 3. -/
theorem c4_match_termination (cfg : Nat → Option ℚ) (g : GameplayMatch)
    (h3 : g.max_rounds = 3) (hres : g.in_results = false) :
    ((GameplayMatch.end_round cfg g).in_results = true ↔
      (2 ≤ (if g.p2_score < g.p1_score then g.p1_round_wins + 1 else g.p1_round_wins) ∨
       2 ≤ (if g.p1_score < g.p2_score then g.p2_round_wins + 1 else g.p2_round_wins) ∨
       3 ≤ g.current_round)) := by
  unfold GameplayMatch.end_round
  by_cases hA : g.p2_score < g.p1_score
  · have hB : ¬ g.p1_score < g.p2_score := by omega
    simp only [hA, hB, if_true, if_false, h3]
    norm_num
    split_ifs with h1 h2 h3a
    · simp only [true_iff]
      omega
    · simp only [true_iff]
      omega
    · simp [hres]
      omega
    · simp [hres]
      omega
  · by_cases hB : g.p1_score < g.p2_score
    · simp only [hA, hB, if_true, if_false, h3]
      norm_num
      split_ifs with h1 h2 h3a
      · simp only [true_iff]
        omega
      · simp only [true_iff]
        omega
      · simp [hres]
        omega
      · simp [hres]
        omega
    · simp only [hA, hB, if_false, h3]
      norm_num
      split_ifs with h1 h2 h3a
      · simp only [true_iff]
        omega
      · simp only [true_iff]
        omega
      · simp [hres]
        omega
      · simp [hres]
        omega

/-- Witness for C4: at one round win each and round counter 2, player 1
winning the round reaches two wins and the match enters the results state
before round 3. -/
theorem c4_match_termination_witness :
    (GameplayMatch.end_round (fun _ => none)
      { p1_score := 450, p2_score := 300, p1_round_wins := 1, p2_round_wins := 1,
        current_round := 2, max_rounds := 3, round_active := true, current_level := 2,
        fall_speed := 210, base_spawn_interval := 17/20, round_duration := 60,
        in_results := false }).in_results = true := by
  rw [c4_match_termination (fun _ => none) _ rfl rfl]
  norm_num

/-- C5 counterexample: in Treat Attack mode the screen score is not
floored; collecting the point value -200 bad treat at score 150 leaves
the score at -50, not 0, contradicting the claim that every Side/Player
score stays non-negative. -/
theorem c5_score_floor_counterexample :
    (taState150.collectTreat badTreat).1.score = -50 ∧
    (taState150.collectTreat badTreat).1.score < 0 := by
  constructor
  · rfl
  · decide

/-- C5 amended: the score floor holds for the split-screen Player
(add_score clamps at zero, so any sequence of point additions and
subtractions keeps the score non-negative), while the Treat Attack screen
adds the raw point value with no floor, so its score can go negative. -/
theorem c5_score_floor_amended (p : Player) (l : List ℤ) (h : 0 ≤ p.score)
    (st : TreatAttackState) (t : FallingTreat) :
    0 ≤ (l.foldl Player.add_score p).score ∧
    (st.collectTreat t).1.score = st.score + t.point_value := by
  constructor
  · induction l generalizing p with
    | nil => exact h
    | cons a rest ih =>
      simp only [List.foldl_cons]
      exact ih _ (add_score_nonneg p a)
  · rfl

/-- Witness for C5 amended: a Player at score 150 collecting -200 then
+100 stays non-negative, and the Treat Attack screen at 150 collecting
the -200 treat lands exactly at 150 - 200. -/
theorem c5_score_floor_amended_witness :
    0 ≤ (List.foldl Player.add_score
      { x := 0, y := 0, width := 144, height := 144, arena_left := 0, arena_top := 0,
        arena_right := 800, arena_bottom := 800, velocity_x := 0, velocity_y := 0,
        score := 150, active_effects := [], is_invincible := false,
        controls_flipped := false, leash_base_min_x := 0, leash_base_max_x := 656,
        leash_min_x := 0, leash_max_x := 656, leash_effect_timer := 0,
        leash_effect_duration := 8, leash_extend_amount := 120,
        leash_yank_amount := 280 } [-200, 100]).score ∧
    (taState150.collectTreat badTreat).1.score = taState150.score + badTreat.point_value :=
  (c5_score_floor_amended _ [-200, 100] (by norm_num) taState150 badTreat)

/-- Helper: iterating yank_leash never changes the leash minimum, the base
maximum, the yank amount or the width. -/
theorem yank_iter_fields (p : Player) (n : Nat) :
    ((Player.yank_leash)^[n] p).leash_min_x = p.leash_min_x ∧
    ((Player.yank_leash)^[n] p).leash_base_max_x = p.leash_base_max_x ∧
    ((Player.yank_leash)^[n] p).leash_yank_amount = p.leash_yank_amount ∧
    ((Player.yank_leash)^[n] p).width = p.width := by
  induction n with
  | zero => exact ⟨rfl, rfl, rfl, rfl⟩
  | succ k ih =>
    rw [Function.iterate_succ_apply']
    simpa [Player.yank_leash] using ih

/-- Helper: iterating the plain extend_leash never changes the base
maximum or the extend amount. -/
theorem extend_iter_fields (p : Player) (n : Nat) :
    (((fun q => Player.extend_leash q none))^[n] p).leash_base_max_x = p.leash_base_max_x ∧
    (((fun q => Player.extend_leash q none))^[n] p).leash_extend_amount = p.leash_extend_amount := by
  induction n with
  | zero => exact ⟨rfl, rfl⟩
  | succ k ih =>
    rw [Function.iterate_succ_apply']
    simpa [Player.extend_leash] using ih

/-- C7: leash clamp bounds under repetition.  Any positive number of yank
applications leaves the leash maximum at the same clamped value, never
below the leash minimum plus the configured minimum range of two dog
widths, and any positive number of plain extend applications leaves the
leash maximum exactly at the base maximum plus the configured extend
amount: the effects do not accumulate. -/
theorem c7_leash_clamp_repetition (p : Player) (n : Nat) (hn : 1 ≤ n) :
    ((Player.yank_leash)^[n] p).leash_max_x =
      max (p.leash_base_max_x - p.leash_yank_amount) (p.leash_min_x + p.width * 2) ∧
    ((Player.yank_leash)^[n] p).leash_min_x + ((Player.yank_leash)^[n] p).width * 2 ≤
      ((Player.yank_leash)^[n] p).leash_max_x ∧
    (((fun q => Player.extend_leash q none))^[n] p).leash_max_x =
      p.leash_base_max_x + p.leash_extend_amount := by
  obtain ⟨m, rfl⟩ : ∃ m, n = m + 1 := ⟨n - 1, by omega⟩
  have hy := yank_iter_fields p m
  have he := extend_iter_fields p m
  have h1 : ((Player.yank_leash)^[m + 1] p).leash_max_x =
      max (p.leash_base_max_x - p.leash_yank_amount) (p.leash_min_x + p.width * 2) := by
    rw [Function.iterate_succ_apply']
    simp only [Player.yank_leash]
    rw [hy.1, hy.2.1, hy.2.2.1, hy.2.2.2]
  have hfields := yank_iter_fields p (m + 1)
  refine ⟨h1, ?_, ?_⟩
  · rw [h1, hfields.1, hfields.2.2.2]
    exact le_max_right _ _
  · rw [Function.iterate_succ_apply']
    have hstep : ∀ q : Player, (Player.extend_leash q none).leash_max_x =
        q.leash_base_max_x + q.leash_extend_amount := fun q => rfl
    simp only [hstep]
    rw [he.1, he.2]

/-- Witness for C7 at five repetitions on a concrete player with the
arena-derived amounts of the source. -/
theorem c7_leash_clamp_repetition_witness :
    ((Player.yank_leash)^[5]
      { x := 0, y := 0, width := 144, height := 144, arena_left := 0, arena_top := 0,
        arena_right := 800, arena_bottom := 800, velocity_x := 0, velocity_y := 0,
        score := 0, active_effects := [], is_invincible := false,
        controls_flipped := false, leash_base_min_x := 0, leash_base_max_x := 656,
        leash_min_x := 0, leash_max_x := 656, leash_effect_timer := 0,
        leash_effect_duration := 8, leash_extend_amount := 120,
        leash_yank_amount := 280 }).leash_max_x = max (656 - 280) (0 + 144 * 2) :=
  (c7_leash_clamp_repetition _ 5 (by norm_num)).1

/-- Helper: processCommand never changes the voting window flag. -/
theorem processCommand_voting_active (st : TreatAttackState) (cmd : String) :
    (st.processCommand cmd).voting_active = st.voting_active := by
  simp only [TreatAttackState.processCommand]
  repeat' split
  all_goals rfl

/-- Helper: iterated extend commands during the active window add exactly
one anonymous extend vote each. -/
theorem processCommand_extend_iter (cmd : String)
    (h : pyStrip (pyLower cmd) = "!extend" ∨ pyStrip (pyLower cmd) = "!help") (n : Nat) :
    ∀ st : TreatAttackState, st.voting_active = true →
      (((fun q => TreatAttackState.processCommand q cmd)^[n]) st).voting_meter.extend_votes =
        st.voting_meter.extend_votes + n ∧
      (((fun q => TreatAttackState.processCommand q cmd)^[n]) st).voting_active = true := by
  induction n with
  | zero => exact fun st hact => ⟨rfl, hact⟩
  | succ k ih =>
    intro st hact
    rw [Function.iterate_succ_apply]
    have hact2 : (st.processCommand cmd).voting_active = true := by
      rw [processCommand_voting_active]
      exact hact
    have hstep : (st.processCommand cmd).voting_meter.extend_votes =
        st.voting_meter.extend_votes + 1 := by
      rcases h with h | h
      · simp [TreatAttackState.processCommand, h, hact, VotingMeter.add_vote]
      · simp [TreatAttackState.processCommand, h, hact, VotingMeter.add_vote]
    have := ih (st.processCommand cmd) hact2
    rw [this.1, hstep]
    exact ⟨by omega, this.2⟩

/-- Helper: iterated yank commands during the active window add exactly
one anonymous yank vote each. -/
theorem processCommand_yank_iter (cmd : String)
    (h : pyStrip (pyLower cmd) = "!yank" ∨ pyStrip (pyLower cmd) = "!hinder") (n : Nat) :
    ∀ st : TreatAttackState, st.voting_active = true →
      (((fun q => TreatAttackState.processCommand q cmd)^[n]) st).voting_meter.yank_votes =
        st.voting_meter.yank_votes + n ∧
      (((fun q => TreatAttackState.processCommand q cmd)^[n]) st).voting_active = true := by
  induction n with
  | zero => exact fun st hact => ⟨rfl, hact⟩
  | succ k ih =>
    intro st hact
    rw [Function.iterate_succ_apply]
    have hact2 : (st.processCommand cmd).voting_active = true := by
      rw [processCommand_voting_active]
      exact hact
    have hstep : (st.processCommand cmd).voting_meter.yank_votes =
        st.voting_meter.yank_votes + 1 := by
      rcases h with h | h
      · simp [TreatAttackState.processCommand, h, hact, VotingMeter.add_vote]
      · simp [TreatAttackState.processCommand, h, hact, VotingMeter.add_vote]
    have := ih (st.processCommand cmd) hact2
    rw [this.1, hstep]
    exact ⟨by omega, this.2⟩

/-- C10: Treat Attack votes carry no voter identity.  While the voting
window is active, each extend synonym command adds exactly one to the
extend count and leaves the yank count unchanged, each yank synonym adds
exactly one to the yank count and leaves the extend count unchanged, and
repeating a command n times from the same source raises the count by n. -/
theorem c10_anonymous_votes (st : TreatAttackState) (cmd : String) (n : Nat)
    (hact : st.voting_active = true) :
    ((pyStrip (pyLower cmd) = "!extend" ∨ pyStrip (pyLower cmd) = "!help") →
      (st.processCommand cmd).voting_meter.extend_votes =
          st.voting_meter.extend_votes + 1 ∧
      (st.processCommand cmd).voting_meter.yank_votes = st.voting_meter.yank_votes ∧
      (((fun q => TreatAttackState.processCommand q cmd)^[n]) st).voting_meter.extend_votes =
        st.voting_meter.extend_votes + n) ∧
    ((pyStrip (pyLower cmd) = "!yank" ∨ pyStrip (pyLower cmd) = "!hinder") →
      (st.processCommand cmd).voting_meter.yank_votes =
          st.voting_meter.yank_votes + 1 ∧
      (st.processCommand cmd).voting_meter.extend_votes = st.voting_meter.extend_votes ∧
      (((fun q => TreatAttackState.processCommand q cmd)^[n]) st).voting_meter.yank_votes =
        st.voting_meter.yank_votes + n) := by
  constructor
  · intro h
    refine ⟨?_, ?_, (processCommand_extend_iter cmd h n st hact).1⟩
    · rcases h with h | h
      · simp [TreatAttackState.processCommand, h, hact, VotingMeter.add_vote]
      · simp [TreatAttackState.processCommand, h, hact, VotingMeter.add_vote]
    · rcases h with h | h
      · simp [TreatAttackState.processCommand, h, hact, VotingMeter.add_vote]
      · simp [TreatAttackState.processCommand, h, hact, VotingMeter.add_vote]
  · intro h
    refine ⟨?_, ?_, (processCommand_yank_iter cmd h n st hact).1⟩
    · rcases h with h | h
      · simp [TreatAttackState.processCommand, h, hact, VotingMeter.add_vote]
      · simp [TreatAttackState.processCommand, h, hact, VotingMeter.add_vote]
    · rcases h with h | h
      · simp [TreatAttackState.processCommand, h, hact, VotingMeter.add_vote]
      · simp [TreatAttackState.processCommand, h, hact, VotingMeter.add_vote]

/-- Witness for C10: three !extend commands on the fresh active meter give
an extend count of three. -/
theorem c10_anonymous_votes_witness :
    (((fun q => TreatAttackState.processCommand q "!extend")^[3])
      taState150).voting_meter.extend_votes = taState150.voting_meter.extend_votes + 3 :=
  ((c10_anonymous_votes taState150 "!extend" 3 rfl).1 (Or.inl (by decide))).2.2

/-- Helper: casting an integer room bound to the rationals. -/
theorem int_cast_le_sub (a w b : ℤ) (h : a + w ≤ b) : (a : ℚ) ≤ (b : ℚ) - (w : ℚ) := by
  have h2 : ((a + w : ℤ) : ℚ) ≤ (b : ℚ) := Int.cast_le.mpr h
  push_cast at h2
  linarith

/-- C6 counterexample: a stationary CatcherDog at x = 480 whose leash has
just been yanked (current maximum 350) keeps x = 480 on the next update,
outside the narrowed bounds, because the source clamps only while the
horizontal velocity is non-zero. -/
theorem c6_leash_position_counterexample :
    ((dogAt480.yank_leash).update (1/10)).x = 480 ∧
    ((dogAt480.yank_leash).update (1/10)).leash_state = LeashState.YANKED ∧
    ((dogAt480.yank_leash).update (1/10)).current_max_x = 350 ∧
    ¬ (((dogAt480.yank_leash).update (1/10)).x ≤
        ((((dogAt480.yank_leash).update (1/10)).current_max_x : ℤ) : ℚ)) := by
  have h1 : dogAt480.yank_leash =
      CatcherDog.mk 480 650 64 64 650 720 300 0 true false 0 50 550 670 350 5
        LeashState.YANKED 5 false 0 (2/5) := by
    simp [dogAt480, CatcherDog.yank_leash, CatcherDog.set_leash_state]
  have h2 : (dogAt480.yank_leash).update (1/10) =
      CatcherDog.mk 480 650 64 64 650 720 300 0 true false 0 50 550 670 350 5
        LeashState.YANKED (49/10) false 0 (2/5) := by
    rw [h1]
    norm_num [CatcherDog.update, CatcherDog.tickLeashTimer, CatcherDog.tickEatTimer,
      CatcherDog.applyMovement]
  rw [h2]
  refine ⟨rfl, rfl, rfl, ?_⟩
  norm_num [CatcherDog.current_max_x]

/-- Helper: the leash-timer block keeps the leash bounds ordered. -/
theorem player_tickLeash_bounds (p : Player) (dt : ℚ)
    (hp : p.leash_min_x ≤ p.leash_max_x)
    (hpb : p.leash_base_min_x ≤ p.leash_base_max_x) :
    (p.tickLeashTimer dt).leash_min_x ≤ (p.tickLeashTimer dt).leash_max_x := by
  by_cases h1 : 0 < p.leash_effect_timer
  · by_cases h2 : p.leash_effect_timer - dt ≤ 0
    · simp [Player.tickLeashTimer, Player.reset_leash, h1, h2, hpb]
    · simp [Player.tickLeashTimer, h1, h2, hp]
  · simp [Player.tickLeashTimer, h1, hp]

/-- Helper: the movement block clamps x into the leash bounds. -/
theorem player_applyMovement_x (p : Player) (dt : ℚ)
    (hp : p.leash_min_x ≤ p.leash_max_x) :
    ((p.applyMovement dt).leash_min_x : ℚ) ≤ (p.applyMovement dt).x ∧
      (p.applyMovement dt).x ≤ ((p.applyMovement dt).leash_max_x : ℚ) := by
  simp only [Player.applyMovement]
  exact ⟨le_max_left _ _, max_le (Int.cast_le.mpr hp) (min_le_right _ _)⟩

/-- Helper: update_effects touches only the effect fields. -/
theorem player_update_effects_preserves (p : Player) (dt : ℚ) :
    (p.update_effects dt).x = p.x ∧
    (p.update_effects dt).leash_min_x = p.leash_min_x ∧
    (p.update_effects dt).leash_max_x = p.leash_max_x :=
  ⟨rfl, rfl, rfl⟩

/-- Helper: after every Player.update the x coordinate lies inside the
updated leash bounds, moving or not. -/
theorem player_update_x_bounds (p : Player) (dt : ℚ)
    (hp : p.leash_min_x ≤ p.leash_max_x)
    (hpb : p.leash_base_min_x ≤ p.leash_base_max_x) :
    (((p.update dt).leash_min_x : ℤ) : ℚ) ≤ (p.update dt).x ∧
      (p.update dt).x ≤ (((p.update dt).leash_max_x : ℤ) : ℚ) := by
  have h1 := player_tickLeash_bounds p dt hp hpb
  have h2 := player_applyMovement_x (p.tickLeashTimer dt) dt h1
  have hpres := player_update_effects_preserves ((p.tickLeashTimer dt).applyMovement dt) dt
  unfold Player.update
  rw [hpres.1, hpres.2.1, hpres.2.2]
  exact h2

/-- Helper: the leash-timer block of the dog never changes the config
bounds, the width or the velocity. -/
theorem dog_tickLeash_config (d : CatcherDog) (dt : ℚ) :
    (d.tickLeashTimer dt).default_min_x = d.default_min_x ∧
    (d.tickLeashTimer dt).default_max_x = d.default_max_x ∧
    (d.tickLeashTimer dt).extended_max_x = d.extended_max_x ∧
    (d.tickLeashTimer dt).yanked_max_x = d.yanked_max_x ∧
    (d.tickLeashTimer dt).width = d.width ∧
    (d.tickLeashTimer dt).velocity_x = d.velocity_x := by
  by_cases h1 : 0 < d.leash_effect_timer
  · by_cases h2 : d.leash_effect_timer - dt ≤ 0
    · simp [CatcherDog.tickLeashTimer, CatcherDog.reset_leash, h1, h2]
    · simp [CatcherDog.tickLeashTimer, h1, h2]
  · simp [CatcherDog.tickLeashTimer, h1]

/-- Helper: the eat-timer block of the dog never changes the config
bounds, the width, the velocity or the leash state. -/
theorem dog_tickEat_config (d : CatcherDog) (dt : ℚ) :
    (d.tickEatTimer dt).default_min_x = d.default_min_x ∧
    (d.tickEatTimer dt).default_max_x = d.default_max_x ∧
    (d.tickEatTimer dt).extended_max_x = d.extended_max_x ∧
    (d.tickEatTimer dt).yanked_max_x = d.yanked_max_x ∧
    (d.tickEatTimer dt).width = d.width ∧
    (d.tickEatTimer dt).velocity_x = d.velocity_x := by
  by_cases h1 : d.is_eating = true
  · by_cases h2 : d.eat_timer - dt ≤ 0
    · simp [CatcherDog.tickEatTimer, h1, h2]
    · simp [CatcherDog.tickEatTimer, h1, h2]
  · simp [CatcherDog.tickEatTimer, h1]

/-- Helper: every reachable current leash bound of a CatcherDog leaves at
least one dog width of room when the three configured maxima do. -/
theorem dog_current_bounds_ok (d : CatcherDog)
    (hd1 : d.default_min_x + d.width ≤ d.default_max_x)
    (hd2 : d.default_min_x + d.width ≤ d.extended_max_x)
    (hd3 : d.default_min_x + d.width ≤ d.yanked_max_x) :
    d.current_min_x + d.width ≤ d.current_max_x := by
  unfold CatcherDog.current_min_x CatcherDog.current_max_x
  cases d.leash_state
  · exact hd1
  · exact hd2
  · exact hd3

/-- Helper: the movement block clamps the moving dog into the current
leash bounds. -/
theorem dog_applyMovement_x (d : CatcherDog) (dt : ℚ)
    (hcur : d.current_min_x + d.width ≤ d.current_max_x)
    (hmov : d.velocity_x ≠ 0) :
    (((d.applyMovement dt).current_min_x : ℤ) : ℚ) ≤ (d.applyMovement dt).x ∧
      (d.applyMovement dt).x ≤ ((((d.applyMovement dt).current_max_x : ℤ) : ℚ) -
        (((d.applyMovement dt).width : ℤ) : ℚ)) := by
  have hb : (d.current_min_x : ℚ) ≤ (d.current_max_x : ℚ) - (d.width : ℚ) :=
    int_cast_le_sub _ _ _ hcur
  have hx : (d.applyMovement dt).x = max (d.current_min_x : ℚ)
      (min (d.x + d.velocity_x * dt) ((d.current_max_x : ℚ) - (d.width : ℚ))) := by
    unfold CatcherDog.applyMovement
    rw [if_pos hmov]
  have hmin : (d.applyMovement dt).current_min_x = d.current_min_x := by
    unfold CatcherDog.applyMovement CatcherDog.current_min_x
    split
    · rfl
    · rfl
  have hls : (d.applyMovement dt).leash_state = d.leash_state := by
    unfold CatcherDog.applyMovement
    split
    · rfl
    · rfl
  have he2 : (d.applyMovement dt).extended_max_x = d.extended_max_x := by
    unfold CatcherDog.applyMovement
    split
    · rfl
    · rfl
  have hy2 : (d.applyMovement dt).yanked_max_x = d.yanked_max_x := by
    unfold CatcherDog.applyMovement
    split
    · rfl
    · rfl
  have hdm2 : (d.applyMovement dt).default_max_x = d.default_max_x := by
    unfold CatcherDog.applyMovement
    split
    · rfl
    · rfl
  have hmax : (d.applyMovement dt).current_max_x = d.current_max_x := by
    unfold CatcherDog.current_max_x
    rw [hls, he2, hy2, hdm2]
  have hw : (d.applyMovement dt).width = d.width := by
    unfold CatcherDog.applyMovement
    split
    · rfl
    · rfl
  rw [hx, hmin, hmax, hw]
  exact ⟨le_max_left _ _, max_le hb (min_le_right _ _)⟩

/-- Helper: after every CatcherDog.update with non-zero horizontal
velocity the x coordinate lies inside the updated current leash bounds. -/
theorem dog_update_x_bounds (d : CatcherDog) (dt : ℚ)
    (hd1 : d.default_min_x + d.width ≤ d.default_max_x)
    (hd2 : d.default_min_x + d.width ≤ d.extended_max_x)
    (hd3 : d.default_min_x + d.width ≤ d.yanked_max_x)
    (hmov : d.velocity_x ≠ 0) :
    (((d.update dt).current_min_x : ℤ) : ℚ) ≤ (d.update dt).x ∧
      (d.update dt).x ≤ ((((d.update dt).current_max_x : ℤ) : ℚ) -
        (((d.update dt).width : ℤ) : ℚ)) := by
  have hc1 := dog_tickLeash_config d dt
  have hc2 := dog_tickEat_config (d.tickLeashTimer dt) dt
  have hcur : ((d.tickLeashTimer dt).tickEatTimer dt).current_min_x +
      ((d.tickLeashTimer dt).tickEatTimer dt).width ≤
      ((d.tickLeashTimer dt).tickEatTimer dt).current_max_x := by
    apply dog_current_bounds_ok
    · rw [hc2.1, hc2.2.2.2.2.1, hc1.1, hc1.2.2.2.2.1, hc2.2.1, hc1.2.1]
      exact hd1
    · rw [hc2.1, hc2.2.2.2.2.1, hc1.1, hc1.2.2.2.2.1, hc2.2.2.1, hc1.2.2.1]
      exact hd2
    · rw [hc2.1, hc2.2.2.2.2.1, hc1.1, hc1.2.2.2.2.1, hc2.2.2.2.1, hc1.2.2.2.1]
      exact hd3
  have hmv2 : ((d.tickLeashTimer dt).tickEatTimer dt).velocity_x ≠ 0 := by
    rw [hc2.2.2.2.2.2, hc1.2.2.2.2.2]
    exact hmov
  have h := dog_applyMovement_x ((d.tickLeashTimer dt).tickEatTimer dt) dt hcur hmv2
  exact h

/-- C6 amended: after every Player.update the x coordinate lies within the
current leash bounds whether or not the player is moving (so a yank is
enforced on the next update regardless of movement), while a CatcherDog is
clamped into its current bounds on update only when its horizontal
velocity is non-zero: a stationary CatcherDog can remain outside bounds
narrowed by a yank (see the counterexample). -/
theorem c6_leash_position_amended (p : Player) (d : CatcherDog) (dt : ℚ)
    (hp : p.leash_min_x ≤ p.leash_max_x)
    (hpb : p.leash_base_min_x ≤ p.leash_base_max_x)
    (hd1 : d.default_min_x + d.width ≤ d.default_max_x)
    (hd2 : d.default_min_x + d.width ≤ d.extended_max_x)
    (hd3 : d.default_min_x + d.width ≤ d.yanked_max_x)
    (hmov : d.velocity_x ≠ 0) :
    ((((p.update dt).leash_min_x : ℤ) : ℚ) ≤ (p.update dt).x ∧
      (p.update dt).x ≤ (((p.update dt).leash_max_x : ℤ) : ℚ)) ∧
    ((((d.update dt).current_min_x : ℤ) : ℚ) ≤ (d.update dt).x ∧
      (d.update dt).x ≤ ((((d.update dt).current_max_x : ℤ) : ℚ) -
        (((d.update dt).width : ℤ) : ℚ))) :=
  ⟨player_update_x_bounds p dt hp hpb, dog_update_x_bounds d dt hd1 hd2 hd3 hmov⟩

/-- Witness for C6 amended at a concrete stationary player with a freshly
yanked leash and a concrete moving dog. -/
theorem c6_leash_position_amended_witness :
    (let pw : Player := Player.mk 480 300 144 144 0 0 800 800 0 0 0 [] false false
       0 656 0 232 8 8 120 280
     let dw : CatcherDog := { dogAt480 with velocity_x := 300 }
     ((((pw.update (1/10)).leash_min_x : ℤ) : ℚ) ≤ (pw.update (1/10)).x ∧
       (pw.update (1/10)).x ≤ (((pw.update (1/10)).leash_max_x : ℤ) : ℚ)) ∧
     ((((dw.update (1/10)).current_min_x : ℤ) : ℚ) ≤ (dw.update (1/10)).x ∧
       (dw.update (1/10)).x ≤ ((((dw.update (1/10)).current_max_x : ℤ) : ℚ) -
         (((dw.update (1/10)).width : ℤ) : ℚ)))) := by
  exact c6_leash_position_amended _ _ (1/10) (by norm_num) (by norm_num)
    (by norm_num [dogAt480]) (by norm_num [dogAt480]) (by norm_num [dogAt480])
    (by norm_num [dogAt480])

/-- Helper: a sweep never changes the number of snacks in the arena. -/
theorem sweep_length (pid arena : Nat) (stolen : Bool) (hb : Rect) :
    ∀ (l : List FallingSnack) (pl : Player) (n : Nat),
      (sweepSnacks pid arena stolen hb pl n l).2.1.length = l.length := by
  intro l
  induction l with
  | nil =>
    intro pl n
    rfl
  | cons s rest ih =>
    intro pl n
    unfold sweepSnacks
    split
    · simp [ih]
    · simp [ih]

/-- Helper: every event of a sweep starting at index n has index at
least n. -/
theorem sweep_idx_ge (pid arena : Nat) (stolen : Bool) (hb : Rect) :
    ∀ (l : List FallingSnack) (pl : Player) (n : Nat) (e : CollectEvent),
      e ∈ (sweepSnacks pid arena stolen hb pl n l).2.2 → n ≤ e.idx := by
  intro l
  induction l with
  | nil =>
    intro pl n e h
    simp [sweepSnacks] at h
  | cons s rest ih =>
    intro pl n e h
    unfold sweepSnacks at h
    split at h
    · simp only [List.mem_cons] at h
      rcases h with h | h
      · subst h
        exact le_refl n
      · exact le_trans (Nat.le_succ n) (ih _ (n + 1) e h)
    · exact le_trans (Nat.le_succ n) (ih _ (n + 1) e h)

/-- Helper: every event of a sweep starting at index n over l has index
below n plus the length of l. -/
theorem sweep_idx_lt (pid arena : Nat) (stolen : Bool) (hb : Rect) :
    ∀ (l : List FallingSnack) (pl : Player) (n : Nat) (e : CollectEvent),
      e ∈ (sweepSnacks pid arena stolen hb pl n l).2.2 → e.idx < n + l.length := by
  intro l
  induction l with
  | nil =>
    intro pl n e h
    simp [sweepSnacks] at h
  | cons s rest ih =>
    intro pl n e h
    unfold sweepSnacks at h
    split at h
    · simp only [List.mem_cons] at h
      rcases h with h | h
      · subst h
        simp
      · have := ih _ (n + 1) e h
        simp only [List.length_cons]
        omega
    · have := ih _ (n + 1) e h
      simp only [List.length_cons]
      omega

/-- Helper: every event of a sweep carries the pid, the arena and the
stolen flag of that sweep. -/
theorem sweep_event_fields (pid arena : Nat) (stolen : Bool) (hb : Rect) :
    ∀ (l : List FallingSnack) (pl : Player) (n : Nat) (e : CollectEvent),
      e ∈ (sweepSnacks pid arena stolen hb pl n l).2.2 →
      e.pid = pid ∧ e.arena = arena ∧ e.stolen = stolen := by
  intro l
  induction l with
  | nil =>
    intro pl n e h
    simp [sweepSnacks] at h
  | cons s rest ih =>
    intro pl n e h
    unfold sweepSnacks at h
    split at h
    · simp only [List.mem_cons] at h
      rcases h with h | h
      · subst h
        exact ⟨rfl, rfl, rfl⟩
      · exact ih _ (n + 1) e h
    · exact ih _ (n + 1) e h

/-- Helper: an event list all of whose indices avoid i filters to nil on
index i. -/
theorem filter_idx_nil (evs : List CollectEvent) (i : Nat)
    (h : ∀ e ∈ evs, ¬ e.idx = i) :
    evs.filter (fun e => decide (e.idx = i)) = [] := by
  induction evs with
  | nil => rfl
  | cons e rest ih =>
    have he : ¬ e.idx = i := h e (List.mem_cons_self e rest)
    rw [List.filter_cons, if_neg (by simpa using he)]
    exact ih (fun e2 h2 => h e2 (List.mem_cons_of_mem _ h2))

/-- Helper: an event list headed by an event at index i whose tail avoids
index i filters to exactly that head on index i. -/
theorem filter_idx_cons_head (ev : CollectEvent) (evs : List CollectEvent) (i : Nat)
    (hev : ev.idx = i) (h : ∀ e ∈ evs, ¬ e.idx = i) :
    (ev :: evs).filter (fun e => decide (e.idx = i)) = [ev] := by
  rw [List.filter_cons, if_pos (by simpa using hev), filter_idx_nil evs i h]

/-- Helper: a snack that is active and overlapping when the sweep reaches
it is collected: the output slot holds the collected snack and the sweep
emits exactly one event for its index, tagged with the sweep data. -/
theorem sweep_get_hit (pid arena : Nat) (stolen : Bool) (hb : Rect) :
    ∀ (l : List FallingSnack) (pl : Player) (n i : Nat) (s : FallingSnack),
      l.get? i = some s →
      (s.active && hb.colliderect (s.rect.inflate (-20) (-20))) = true →
      (sweepSnacks pid arena stolen hb pl n l).2.1.get? i = some (s.collect).2 ∧
      ∃ pts, (sweepSnacks pid arena stolen hb pl n l).2.2.filter
          (fun e => decide (e.idx = n + i)) =
        [CollectEvent.mk pid arena (n + i) stolen pts] := by
  intro l
  induction l with
  | nil =>
    intro pl n i s hget hhit
    simp at hget
  | cons s0 rest ih =>
    intro pl n i s hget hhit
    cases i with
    | zero =>
      have hs : s0 = s := by simpa using hget
      subst hs
      unfold sweepSnacks
      rw [if_pos hhit]
      refine ⟨rfl, ?_⟩
      exact ⟨_, filter_idx_cons_head _ _ _ (by simp)
        (fun e he => by
          have := sweep_idx_ge pid arena stolen hb rest _ (n + 1) e he
          omega)⟩
    | succ j =>
      rw [List.get?_cons_succ] at hget
      unfold sweepSnacks
      by_cases hcond : (s0.active && hb.colliderect (s0.rect.inflate (-20) (-20))) = true
      · rw [if_pos hcond]
        obtain ⟨h1, pts, h2⟩ := ih _ (n + 1) j s hget hhit
        refine ⟨by simpa using h1, pts, ?_⟩
        have heq : n + 1 + j = n + (j + 1) := by omega
        rw [← heq]
        rw [show ((CollectEvent.mk pid arena n stolen _ ::
            (sweepSnacks pid arena stolen hb _ (n + 1) rest).2.2).filter
            (fun e => decide (e.idx = n + 1 + j))) =
            ((sweepSnacks pid arena stolen hb _ (n + 1) rest).2.2.filter
            (fun e => decide (e.idx = n + 1 + j))) from by
          rw [List.filter_cons, if_neg (by simp only [decide_eq_true_eq]; omega)]]
        exact h2
      · rw [if_neg hcond]
        obtain ⟨h1, pts, h2⟩ := ih _ (n + 1) j s hget hhit
        refine ⟨by simpa using h1, pts, ?_⟩
        have heq : n + 1 + j = n + (j + 1) := by omega
        rw [← heq]
        exact h2

/-- Helper: a snack that is inactive or not overlapping when the sweep
reaches it is left unchanged and generates no event for its index. -/
theorem sweep_get_miss (pid arena : Nat) (stolen : Bool) (hb : Rect) :
    ∀ (l : List FallingSnack) (pl : Player) (n i : Nat) (s : FallingSnack),
      l.get? i = some s →
      (s.active && hb.colliderect (s.rect.inflate (-20) (-20))) = false →
      (sweepSnacks pid arena stolen hb pl n l).2.1.get? i = some s ∧
      (sweepSnacks pid arena stolen hb pl n l).2.2.filter
          (fun e => decide (e.idx = n + i)) = [] := by
  intro l
  induction l with
  | nil =>
    intro pl n i s hget hmiss
    simp at hget
  | cons s0 rest ih =>
    intro pl n i s hget hmiss
    cases i with
    | zero =>
      have hs : s0 = s := by simpa using hget
      subst hs
      unfold sweepSnacks
      rw [if_neg (by simp [hmiss])]
      refine ⟨rfl, ?_⟩
      apply filter_idx_nil
      intro e he
      have := sweep_idx_ge pid arena stolen hb rest _ (n + 1) e he
      omega
    | succ j =>
      rw [List.get?_cons_succ] at hget
      unfold sweepSnacks
      by_cases hcond : (s0.active && hb.colliderect (s0.rect.inflate (-20) (-20))) = true
      · rw [if_pos hcond]
        obtain ⟨h1, h2⟩ := ih _ (n + 1) j s hget hmiss
        refine ⟨by simpa using h1, ?_⟩
        have heq : n + 1 + j = n + (j + 1) := by omega
        rw [← heq]
        rw [show ((CollectEvent.mk pid arena n stolen _ ::
            (sweepSnacks pid arena stolen hb _ (n + 1) rest).2.2).filter
            (fun e => decide (e.idx = n + 1 + j))) =
            ((sweepSnacks pid arena stolen hb _ (n + 1) rest).2.2.filter
            (fun e => decide (e.idx = n + 1 + j))) from by
          rw [List.filter_cons, if_neg (by simp only [decide_eq_true_eq]; omega)]]
        exact h2
      · rw [if_neg hcond]
        obtain ⟨h1, h2⟩ := ih _ (n + 1) j s hget hmiss
        refine ⟨by simpa using h1, ?_⟩
        have heq : n + 1 + j = n + (j + 1) := by omega
        rw [← heq]
        exact h2

/-- Helper: one sweep emits at most one event for any fixed index. -/
theorem sweep_filter_le_one (pid arena : Nat) (stolen : Bool) (hb : Rect) (j : Nat) :
    ∀ (l : List FallingSnack) (pl : Player) (n : Nat),
      ((sweepSnacks pid arena stolen hb pl n l).2.2.filter
        (fun e => decide (e.idx = j))).length ≤ 1 := by
  intro l
  induction l with
  | nil =>
    intro pl n
    simp [sweepSnacks]
  | cons s rest ih =>
    intro pl n
    unfold sweepSnacks
    split
    · by_cases hj : n = j
      · subst hj
        rw [show ((CollectEvent.mk pid arena n stolen _ ::
            (sweepSnacks pid arena stolen hb _ (n + 1) rest).2.2).filter
            (fun e => decide (e.idx = n))) =
            [CollectEvent.mk pid arena n stolen _] from
          filter_idx_cons_head _ _ _ rfl (fun e he => by
            have := sweep_idx_ge pid arena stolen hb rest _ (n + 1) e he
            omega)]
        simp
      · rw [show ((CollectEvent.mk pid arena n stolen _ ::
            (sweepSnacks pid arena stolen hb _ (n + 1) rest).2.2).filter
            (fun e => decide (e.idx = j))) =
            ((sweepSnacks pid arena stolen hb _ (n + 1) rest).2.2.filter
            (fun e => decide (e.idx = j))) from by
          rw [List.filter_cons, if_neg (by simp only [decide_eq_true_eq]; omega)]]
        exact ih _ (n + 1)
    · exact ih _ (n + 1)

/-- Helper: filtering on arena and index over events that all carry that
arena equals filtering on the index alone. -/
theorem filter_arena_idx_eq (a i : Nat) (evs : List CollectEvent)
    (h : ∀ e ∈ evs, e.arena = a) :
    evs.filter (fun e => decide (e.arena = a ∧ e.idx = i)) =
      evs.filter (fun e => decide (e.idx = i)) := by
  apply List.filter_congr
  intro e he
  simp [h e he]

/-- Helper: events that all carry a different arena filter to nil on an
arena-and-index predicate. -/
theorem filter_arena_ne_nil (a i b : Nat) (evs : List CollectEvent)
    (h : ∀ e ∈ evs, e.arena = b) (hab : b ≠ a) :
    evs.filter (fun e => decide (e.arena = a ∧ e.idx = i)) = [] := by
  induction evs with
  | nil => rfl
  | cons e rest ih =>
    have hb : e.arena = b := h e (List.mem_cons_self _ _)
    rw [List.filter_cons, if_neg (by
      simp only [decide_eq_true_eq, hb]
      exact fun hc => hab hc.1)]
    exact ih (fun e2 h2 => h e2 (List.mem_cons_of_mem _ h2))

/-- Helper: across an own-arena sweep followed by an optional steal sweep
over its output list, any fixed index receives at most one collection
event in total. -/
theorem two_pass_le_one (a pidA pidB : Nat) (hbA hbB : Rect) (plA plB : Player)
    (l : List FallingSnack) (i : Nat) (EB : List CollectEvent)
    (hEB : EB = (sweepSnacks pidB a true hbB plB 0
        (sweepSnacks pidA a false hbA plA 0 l).2.1).2.2 ∨ EB = []) :
    ((sweepSnacks pidA a false hbA plA 0 l).2.2.filter
        (fun e => decide (e.idx = i))).length +
      (EB.filter (fun e => decide (e.idx = i))).length ≤ 1 := by
  rcases hEB with hEB | hEB
  · subst hEB
    rcases hget : l.get? i with _ | s
    · have hlen : l.length ≤ i := List.get?_eq_none.mp hget
      have h1 : (sweepSnacks pidA a false hbA plA 0 l).2.2.filter
          (fun e => decide (e.idx = i)) = [] := by
        apply filter_idx_nil
        intro e he
        have := sweep_idx_lt pidA a false hbA l plA 0 e he
        omega
      have hlen2 : (sweepSnacks pidA a false hbA plA 0 l).2.1.length = l.length :=
        sweep_length _ _ _ _ l plA 0
      have h2 : (sweepSnacks pidB a true hbB plB 0
          (sweepSnacks pidA a false hbA plA 0 l).2.1).2.2.filter
          (fun e => decide (e.idx = i)) = [] := by
        apply filter_idx_nil
        intro e he
        have := sweep_idx_lt pidB a true hbB _ plB 0 e he
        omega
      rw [h1, h2]
      simp
    · by_cases hcond : (s.active && hbA.colliderect (s.rect.inflate (-20) (-20))) = true
      · obtain ⟨hout, pts, hfil⟩ := sweep_get_hit pidA a false hbA l plA 0 i s hget hcond
        rw [Nat.zero_add] at hfil
        have hmiss2 : ((s.collect).2.active &&
            hbB.colliderect (((s.collect).2.rect).inflate (-20) (-20))) = false := rfl
        obtain ⟨_, hfil2⟩ := sweep_get_miss pidB a true hbB _ plB 0 i (s.collect).2 hout hmiss2
        rw [Nat.zero_add] at hfil2
        rw [hfil, hfil2]
        simp
      · have hcondf : (s.active && hbA.colliderect (s.rect.inflate (-20) (-20))) = false := by
          cases h : (s.active && hbA.colliderect (s.rect.inflate (-20) (-20)))
          · rfl
          · exact absurd h hcond
        obtain ⟨hout, hfil⟩ := sweep_get_miss pidA a false hbA l plA 0 i s hget hcondf
        rw [Nat.zero_add] at hfil
        rw [hfil]
        simp only [List.length_nil, Nat.zero_add]
        exact sweep_filter_le_one pidB a true hbB i _ plB 0
  · subst hEB
    simpa using sweep_filter_le_one pidA a false hbA i l plA 0

/-- Helper: a snack already inactive before the tick survives both passes
unchanged and receives no collection event. -/
theorem two_pass_inactive (a pidA pidB : Nat) (hbA hbB : Rect) (plA plB : Player)
    (l : List FallingSnack) (i : Nat) (s : FallingSnack)
    (hget : l.get? i = some s) (hinact : s.active = false)
    (EB : List CollectEvent) (FB : List FallingSnack)
    (hEB : (EB = (sweepSnacks pidB a true hbB plB 0
          (sweepSnacks pidA a false hbA plA 0 l).2.1).2.2 ∧
        FB = (sweepSnacks pidB a true hbB plB 0
          (sweepSnacks pidA a false hbA plA 0 l).2.1).2.1) ∨
      (EB = [] ∧ FB = (sweepSnacks pidA a false hbA plA 0 l).2.1)) :
    FB.get? i = some s ∧
    (sweepSnacks pidA a false hbA plA 0 l).2.2.filter
      (fun e => decide (e.idx = i)) = [] ∧
    EB.filter (fun e => decide (e.idx = i)) = [] := by
  have hmiss : (s.active && hbA.colliderect (s.rect.inflate (-20) (-20))) = false := by
    rw [hinact]
    rfl
  obtain ⟨hout1, hfil1⟩ := sweep_get_miss pidA a false hbA l plA 0 i s hget hmiss
  rw [Nat.zero_add] at hfil1
  have hmiss2 : (s.active && hbB.colliderect (s.rect.inflate (-20) (-20))) = false := by
    rw [hinact]
    rfl
  rcases hEB with ⟨hE, hF⟩ | ⟨hE, hF⟩
  · obtain ⟨hout2, hfil2⟩ := sweep_get_miss pidB a true hbB _ plB 0 i s hout1 hmiss2
    rw [Nat.zero_add] at hfil2
    subst hE
    subst hF
    exact ⟨hout2, hfil1, hfil2⟩
  · subst hE
    subst hF
    exact ⟨hout1, hfil1, by simp⟩

/-- Helper: a snack that is active and overlapped by the own-arena player
is awarded exactly once, to that player, before any steal pass can see
it. -/
theorem two_pass_owner_wins (a pidA pidB : Nat) (hbA hbB : Rect) (plA plB : Player)
    (l : List FallingSnack) (i : Nat) (s : FallingSnack)
    (hget : l.get? i = some s) (hact : s.active = true)
    (hhit : hbA.colliderect (s.rect.inflate (-20) (-20)) = true)
    (EB : List CollectEvent)
    (hEB : EB = (sweepSnacks pidB a true hbB plB 0
        (sweepSnacks pidA a false hbA plA 0 l).2.1).2.2 ∨ EB = []) :
    ∃ pts, (sweepSnacks pidA a false hbA plA 0 l).2.2.filter
        (fun e => decide (e.idx = i)) = [CollectEvent.mk pidA a i false pts] ∧
      EB.filter (fun e => decide (e.idx = i)) = [] := by
  have hcond : (s.active && hbA.colliderect (s.rect.inflate (-20) (-20))) = true := by
    rw [hact, hhit]
    rfl
  obtain ⟨hout, pts, hfil⟩ := sweep_get_hit pidA a false hbA l plA 0 i s hget hcond
  rw [Nat.zero_add] at hfil
  refine ⟨pts, hfil, ?_⟩
  rcases hEB with hE | hE
  · have hmiss2 : ((s.collect).2.active &&
        hbB.colliderect (((s.collect).2.rect).inflate (-20) (-20))) = false := rfl
    obtain ⟨_, hfil2⟩ := sweep_get_miss pidB a true hbB _ plB 0 i (s.collect).2 hout hmiss2
    rw [Nat.zero_add] at hfil2
    subst hE
    exact hfil2
  · subst hE
    simp

/-- C8: at-most-once collection.  In one _check_collisions pass, every
snack (identified by arena and index) generates at most one collection
event; a snack already inactive stays untouched and unawarded; and when
both hitboxes overlap the same active snack, the side whose sweep runs
first in source order (the arena owner) is the unique one awarded, with
the other side seeing the snack already inactive. -/
theorem c8_at_most_once_collection (g : GameplayTick) (i : Nat) :
    (((checkCollisions g).2.filter
        (fun e => decide (e.arena = 1 ∧ e.idx = i))).length ≤ 1 ∧
     ((checkCollisions g).2.filter
        (fun e => decide (e.arena = 2 ∧ e.idx = i))).length ≤ 1) ∧
    (∀ s, g.arena1_snacks.get? i = some s → s.active = false →
      (checkCollisions g).1.arena1_snacks.get? i = some s ∧
      (checkCollisions g).2.filter (fun e => decide (e.arena = 1 ∧ e.idx = i)) = []) ∧
    (∀ s, g.arena1_snacks.get? i = some s → s.active = true →
      ((g.player1.rect).inflate (-80) (-80)).colliderect
        (s.rect.inflate (-20) (-20)) = true →
      ∃ pts, (checkCollisions g).2.filter
          (fun e => decide (e.arena = 1 ∧ e.idx = i)) =
        [CollectEvent.mk 1 1 i false pts]) ∧
    (∀ s, g.arena2_snacks.get? i = some s → s.active = true →
      ((g.player2.rect).inflate (-80) (-80)).colliderect
        (s.rect.inflate (-20) (-20)) = true →
      ∃ pts, (checkCollisions g).2.filter
          (fun e => decide (e.arena = 2 ∧ e.idx = i)) =
        [CollectEvent.mk 2 2 i false pts]) := by
  set hb1 := (g.player1.rect).inflate (-80) (-80) with hhb1def
  set hb2 := (g.player2.rect).inflate (-80) (-80) with hhb2def
  set R1 := sweepSnacks 1 1 false hb1 g.player1 0 g.arena1_snacks with hR1def
  set R2 := sweepSnacks 2 2 false hb2 g.player2 0 g.arena2_snacks with hR2def
  set R3 := if R1.1.get_leash_state = "extended"
      then sweepSnacks 1 2 true hb1 R1.1 0 R2.2.1
      else (R1.1, R2.2.1, ([] : List CollectEvent)) with hR3def
  set R4 := if R2.1.get_leash_state = "extended"
      then sweepSnacks 2 1 true hb2 R2.1 0 R1.2.1
      else (R2.1, R1.2.1, ([] : List CollectEvent)) with hR4def
  have hCC : checkCollisions g =
      (⟨R3.1, R4.1, R4.2.1, R3.2.1⟩, R1.2.2 ++ R2.2.2 ++ R3.2.2 ++ R4.2.2) := rfl
  have hR3cases : (R3.2.2 = (sweepSnacks 1 2 true hb1 R1.1 0 R2.2.1).2.2 ∧
      R3.2.1 = (sweepSnacks 1 2 true hb1 R1.1 0 R2.2.1).2.1) ∨
      (R3.2.2 = [] ∧ R3.2.1 = R2.2.1) := by
    by_cases hx : R1.1.get_leash_state = "extended"
    · left
      rw [hR3def, if_pos hx]
      exact ⟨rfl, rfl⟩
    · right
      rw [hR3def, if_neg hx]
      exact ⟨rfl, rfl⟩
  have hR4cases : (R4.2.2 = (sweepSnacks 2 1 true hb2 R2.1 0 R1.2.1).2.2 ∧
      R4.2.1 = (sweepSnacks 2 1 true hb2 R2.1 0 R1.2.1).2.1) ∨
      (R4.2.2 = [] ∧ R4.2.1 = R1.2.1) := by
    by_cases hx : R2.1.get_leash_state = "extended"
    · left
      rw [hR4def, if_pos hx]
      exact ⟨rfl, rfl⟩
    · right
      rw [hR4def, if_neg hx]
      exact ⟨rfl, rfl⟩
  have hA1 : ∀ e ∈ R1.2.2, e.arena = 1 := by
    intro e he
    rw [hR1def] at he
    exact (sweep_event_fields 1 1 false hb1 g.arena1_snacks g.player1 0 e he).2.1
  have hA2 : ∀ e ∈ R2.2.2, e.arena = 2 := by
    intro e he
    rw [hR2def] at he
    exact (sweep_event_fields 2 2 false hb2 g.arena2_snacks g.player2 0 e he).2.1
  have hA3 : ∀ e ∈ R3.2.2, e.arena = 2 := by
    intro e he
    rcases hR3cases with ⟨hE, _⟩ | ⟨hE, _⟩
    · rw [hE] at he
      exact (sweep_event_fields 1 2 true hb1 _ R1.1 0 e he).2.1
    · rw [hE] at he
      simp at he
  have hA4 : ∀ e ∈ R4.2.2, e.arena = 1 := by
    intro e he
    rcases hR4cases with ⟨hE, _⟩ | ⟨hE, _⟩
    · rw [hE] at he
      exact (sweep_event_fields 2 1 true hb2 _ R2.1 0 e he).2.1
    · rw [hE] at he
      simp at he
  have hF1a := filter_arena_idx_eq 1 i R1.2.2 hA1
  have hF4a := filter_arena_idx_eq 1 i R4.2.2 hA4
  have hF2a := filter_arena_ne_nil 1 i 2 R2.2.2 hA2 (by omega)
  have hF3a := filter_arena_ne_nil 1 i 2 R3.2.2 hA3 (by omega)
  have hF2b := filter_arena_idx_eq 2 i R2.2.2 hA2
  have hF3b := filter_arena_idx_eq 2 i R3.2.2 hA3
  have hF1b := filter_arena_ne_nil 2 i 1 R1.2.2 hA1 (by omega)
  have hF4b := filter_arena_ne_nil 2 i 1 R4.2.2 hA4 (by omega)
  refine ⟨⟨?_, ?_⟩, ?_, ?_, ?_⟩
  · rw [hCC]
    simp only [List.filter_append, List.length_append, hF1a, hF2a, hF3a, hF4a,
      List.length_nil]
    have := two_pass_le_one 1 1 2 hb1 hb2 g.player1 R2.1 g.arena1_snacks i R4.2.2
      (hR4cases.imp And.left And.left)
    rw [hR1def]
    omega
  · rw [hCC]
    simp only [List.filter_append, List.length_append, hF1b, hF2b, hF3b, hF4b,
      List.length_nil]
    have := two_pass_le_one 2 2 1 hb2 hb1 g.player2 R1.1 g.arena2_snacks i R3.2.2
      (hR3cases.imp And.left And.left)
    rw [hR2def]
    omega
  · intro s hget hinact
    have h := two_pass_inactive 1 1 2 hb1 hb2 g.player1 R2.1 g.arena1_snacks i s
      hget hinact R4.2.2 R4.2.1
      (by
        rcases hR4cases with ⟨hE, hF⟩ | ⟨hE, hF⟩
        · left
          rw [hR1def] at hE hF
          exact ⟨hE, hF⟩
        · right
          rw [hR1def] at hF
          exact ⟨hE, hF⟩)
    rw [hCC]
    refine ⟨h.1, ?_⟩
    simp only [List.filter_append, hF1a, hF2a, hF3a, hF4a]
    rw [hR1def, h.2.1, h.2.2]
    simp
  · intro s hget hact hhit
    obtain ⟨pts, hfilA, hfilB⟩ := two_pass_owner_wins 1 1 2 hb1 hb2 g.player1 R2.1
      g.arena1_snacks i s hget hact hhit R4.2.2 (by
        rcases hR4cases with ⟨hE, _⟩ | ⟨hE, _⟩
        · left
          rw [hR1def] at hE
          exact hE
        · right
          exact hE)
    rw [hCC]
    refine ⟨pts, ?_⟩
    simp only [List.filter_append, hF1a, hF2a, hF3a, hF4a]
    rw [hR1def, hfilA, hfilB]
    simp
  · intro s hget hact hhit
    obtain ⟨pts, hfilA, hfilB⟩ := two_pass_owner_wins 2 2 1 hb2 hb1 g.player2 R1.1
      g.arena2_snacks i s hget hact hhit R3.2.2 (by
        rcases hR3cases with ⟨hE, _⟩ | ⟨hE, _⟩
        · left
          rw [hR2def] at hE
          exact hE
        · right
          exact hE)
    rw [hCC]
    refine ⟨pts, ?_⟩
    simp only [List.filter_append, hF1b, hF2b, hF3b, hF4b]
    rw [hR2def, hfilA, hfilB]
    simp

/-- Witness for C8 at a concrete tick: player 1 overlaps the only snack of
its arena and collects it exactly once, as the unique event of that
snack. -/
theorem c8_at_most_once_collection_witness :
    ∃ pts, (checkCollisions
        (GameplayTick.mk
          (Player.mk 100 100 144 144 0 0 800 800 0 0 0 [] false false
            0 656 0 656 0 8 120 280)
          (Player.mk 400 100 144 144 800 0 1600 800 0 0 0 [] false false
            800 1456 800 1456 0 8 120 280)
          [FallingSnack.mk "pizza" 100 none 150 150 64 64 120 760 true false]
          [])).2.filter (fun e => decide (e.arena = 1 ∧ e.idx = 0)) =
      [CollectEvent.mk 1 1 0 false pts] :=
  (c8_at_most_once_collection
    (GameplayTick.mk
      (Player.mk 100 100 144 144 0 0 800 800 0 0 0 [] false false
        0 656 0 656 0 8 120 280)
      (Player.mk 400 100 144 144 800 0 1600 800 0 0 0 [] false false
        800 1456 800 1456 0 8 120 280)
      [FallingSnack.mk "pizza" 100 none 150 150 64 64 120 760 true false]
      []) 0).2.2.1
    (FallingSnack.mk "pizza" 100 none 150 150 64 64 120 760 true false)
    rfl rfl (by decide)

end SnackAttack
